import Mathlib

/-!
Panel_RM690B0: a shallow embedding of the panel driver.

The driver in `src/lgfx/v1/panel/Panel_RM690B0.cpp` turns the abstract panel
operations into calls on a bus object and on its base class `Panel_Device`.
Neither collaborator is part of the file, so every call made on them is
recorded, in order and with its arguments, in a log carried by the panel
state.  The operations of the driver are functions on that state.

Machine integers are natural numbers.  The driver is built for ESP-IDF
(`driver/spi_master.h`, `esp_log.h`), where `uint_fast16_t`, `uint_fast8_t`
and `uint32_t` are all 32 bit wide; unsigned arithmetic that can wrap is
taken modulo `2 ^ 32`.
-/

namespace Panel_RM690B0

/-! ## Machine arithmetic -/

/-- Modulus of `uint32_t`, and of `uint_fast16_t` on the ESP-IDF targets. -/
def UINT32_MOD : Nat := 2 ^ 32

/-- Unsigned subtraction `a - b`, wrapping. -/
def usub (a b : Nat) : Nat := (a + UINT32_MOD - b % UINT32_MOD) % UINT32_MOD

/-- Unsigned multiplication `a * b`, wrapping. -/
def umul (a b : Nat) : Nat := (a * b) % UINT32_MOD

/-- Unsigned addition `a + b`, wrapping. -/
def uadd (a b : Nat) : Nat := (a + b) % UINT32_MOD

/-- The constant `INT16_MAX` of `<stdint.h>`. -/
def INT16_MAX : Nat := 32767

/-! ## Data model -/

/-- The pixel formats of `color_depth_t` (declared in `misc/enum.hpp`): the
three the driver names, and any other enumerator by its numeric value. -/
inductive color_depth_t where
  | rgb565_2Byte
  | rgb666_3Byte
  | rgb888_3Byte
  | other (value : Nat)
  deriving DecidableEq, Repr

/-- The fields of `Panel_Device::config_t` read by the driver. -/
structure config_t where
  panel_width : Nat
  panel_height : Nat
  memory_width : Nat
  memory_height : Nat
  offset_x : Nat
  offset_y : Nat
  offset_rotation : Nat
  dlen_16bit : Bool
  deriving DecidableEq, Repr

/-- A pointer handed to the bus: into the caller's source image, at a byte
offset, or the DMA buffer last obtained from the bus. -/
inductive DataPtr where
  | src (offset : Nat)
  | dmaBuffer
  deriving DecidableEq, Repr

/-- One call made by the driver on its collaborators: the bus object `_bus`,
the base class (`cs_control`, `startWrite`, `endWrite`, `writeRegister`) and
the platform (`delay`).  Arguments are recorded as passed. -/
inductive Call where
  | cs_control (level : Bool)
  | startWrite
  | endWrite
  | writeRegister (cmd data : Nat)
  | delay (ms : Nat)
  | writeCommand (data bit_length : Nat)
  | writeData (data bit_length : Nat)
  | writeDataRepeat (data bit_length length : Nat)
  | writeBytes (data : DataPtr) (length : Nat) (dc : Bool) (use_dma : Bool)
  | writePixels (length : Nat)
  | wait
  | beginTransaction
  | endTransaction
  | addDMAQueue (data : DataPtr) (length : Nat)
  | execDMAQueue
  | getDMABuffer (length : Nat)
  deriving DecidableEq, Repr

/-- The per-instance fields of the panel used by the driver, and the log of
the calls it has made so far (oldest first).  `_width` and `_height` are only
ever assigned from the 16 bit `_cfg.panel_width` and `_cfg.panel_height`. -/
structure Panel where
  _cfg : config_t
  _width : Nat
  _height : Nat
  _xs : Nat
  _xe : Nat
  _ys : Nat
  _ye : Nat
  _rotation : Nat
  _internal_rotation : Nat
  _write_depth : color_depth_t
  _write_bits : Nat
  _in_transaction : Bool
  _has_align_data : Bool
  log : List Call
  deriving DecidableEq, Repr

/-! ## Elementary calls -/

/-- Record one call. -/
def emit (c : Call) (p : Panel) : Panel := { p with log := p.log ++ [c] }

/-- `cs_control(level)`: `false` drives chip select low, `true` high. -/
def cs_control (level : Bool) (p : Panel) : Panel := emit (.cs_control level) p

/-- `_bus->writeCommand(data, bit_length)`. -/
def bus_writeCommand (data bit_length : Nat) (p : Panel) : Panel :=
  emit (.writeCommand data bit_length) p

/-- `_bus->wait()`. -/
def bus_wait (p : Panel) : Panel := emit .wait p

/-- `write_cmd(cmd)`: the four bytes `02 00 cmd 00`, one `writeCommand` each.
The parameter is a `uint8_t`. -/
def write_cmd (cmd : Nat) (p : Panel) : Panel :=
  let cmd_buffer : List Nat := [0x02, 0x00, cmd % 256, 0x00]
  cmd_buffer.foldl (fun q b => bus_writeCommand b 8 q) p

/-- `start_qspi()`. -/
def start_qspi (p : Panel) : Panel :=
  p |> cs_control false
    |> bus_writeCommand 0x32 8
    |> bus_writeCommand 0x00 8
    |> bus_writeCommand 0x2C 8
    |> bus_writeCommand 0x00 8
    |> bus_wait

/-- `end_qspi()`. -/
def end_qspi (p : Panel) : Panel :=
  p |> bus_writeCommand 0x32 8
    |> bus_writeCommand 0x00 8
    |> bus_writeCommand 0x00 8
    |> bus_writeCommand 0x00 8
    |> bus_wait
    |> cs_control true

/-! ## setWindow -/

/-- `setWindow(xs, ys, xe, ye)`. -/
def setWindow (xs ys xe ye : Nat) (p : Panel) : Panel :=
  let limx : Bool := decide (usub xe xs ≥ p._width)
  let xs1 := if limx then 0 else xs
  let xe1 := if limx then usub p._width 1 else xe
  let limy : Bool := decide (usub ye ys ≥ p._height)
  let ys1 := if limy then 0 else ys
  let ye1 := if limy then usub p._height 1 else ye
  p |> cs_control false
    |> write_cmd 0x2A
    |> bus_writeCommand (xs1 >>> 8) 8
    |> bus_writeCommand (xs1 &&& 0xFF) 8
    |> bus_writeCommand (xe1 >>> 8) 8
    |> bus_writeCommand (xe1 &&& 0xFF) 8
    |> bus_wait
    |> cs_control true
    |> cs_control false
    |> write_cmd 0x2B
    |> bus_writeCommand (ys1 >>> 8) 8
    |> bus_writeCommand (ys1 &&& 0xFF) 8
    |> bus_writeCommand (ye1 >>> 8) 8
    |> bus_writeCommand (ye1 &&& 0xFF) 8
    |> bus_wait
    |> cs_control true
    |> cs_control false
    |> write_cmd 0x2C
    |> bus_wait
    |> cs_control true

/-! ## init -/

/-- `startWrite()` of the base class. -/
def startWrite (p : Panel) : Panel := emit .startWrite p

/-- `endWrite()` of the base class. -/
def endWrite (p : Panel) : Panel := emit .endWrite p

/-- `writeRegister(cmd, data)`. -/
def writeRegister (cmd data : Nat) (p : Panel) : Panel := emit (.writeRegister cmd data) p

/-- The entry type of the register table: a `uint16_t` register address and a
`uint8_t` value. -/
structure writereg_t where
  cmd : Nat
  data : Nat
  deriving DecidableEq, Repr

/-- Entries 0 to 47 of the static table `regs` of `init`. -/
def regs_0 : List writereg_t := [
    ⟨0xF000, 0x55⟩, ⟨0xF001, 0xAA⟩, ⟨0xF002, 0x52⟩, ⟨0xF003, 0x08⟩, ⟨0xF004, 0x01⟩, ⟨0xD100, 0x00⟩,
    ⟨0xD101, 0x00⟩, ⟨0xD102, 0x1b⟩, ⟨0xD103, 0x44⟩, ⟨0xD104, 0x62⟩, ⟨0xD105, 0x00⟩, ⟨0xD106, 0x7b⟩,
    ⟨0xD107, 0xa1⟩, ⟨0xD108, 0xc0⟩, ⟨0xD109, 0xee⟩, ⟨0xD10A, 0x55⟩, ⟨0xD10B, 0x10⟩, ⟨0xD10C, 0x2c⟩,
    ⟨0xD10D, 0x43⟩, ⟨0xD10E, 0x57⟩, ⟨0xD10F, 0x55⟩, ⟨0xD110, 0x68⟩, ⟨0xD111, 0x78⟩, ⟨0xD112, 0x87⟩,
    ⟨0xD113, 0x94⟩, ⟨0xD114, 0x55⟩, ⟨0xD115, 0xa0⟩, ⟨0xD116, 0xac⟩, ⟨0xD117, 0xb6⟩, ⟨0xD118, 0xc1⟩,
    ⟨0xD119, 0x55⟩, ⟨0xD11A, 0xcb⟩, ⟨0xD11B, 0xcd⟩, ⟨0xD11C, 0xd6⟩, ⟨0xD11D, 0xdf⟩, ⟨0xD11E, 0x95⟩,
    ⟨0xD11F, 0xe8⟩, ⟨0xD120, 0xf1⟩, ⟨0xD121, 0xfa⟩, ⟨0xD122, 0x02⟩, ⟨0xD123, 0xaa⟩, ⟨0xD124, 0x0b⟩,
    ⟨0xD125, 0x13⟩, ⟨0xD126, 0x1d⟩, ⟨0xD127, 0x26⟩, ⟨0xD128, 0xaa⟩, ⟨0xD129, 0x30⟩, ⟨0xD12A, 0x3c⟩
  ]

/-- Entries 48 to 95 of the static table `regs` of `init`. -/
def regs_1 : List writereg_t := [
    ⟨0xD12B, 0x4A⟩, ⟨0xD12C, 0x63⟩, ⟨0xD12D, 0xea⟩, ⟨0xD12E, 0x79⟩, ⟨0xD12F, 0xa6⟩, ⟨0xD130, 0xd0⟩,
    ⟨0xD131, 0x20⟩, ⟨0xD132, 0x0f⟩, ⟨0xD133, 0x8e⟩, ⟨0xD134, 0xff⟩, ⟨0xD200, 0x00⟩, ⟨0xD201, 0x00⟩,
    ⟨0xD202, 0x1b⟩, ⟨0xD203, 0x44⟩, ⟨0xD204, 0x62⟩, ⟨0xD205, 0x00⟩, ⟨0xD206, 0x7b⟩, ⟨0xD207, 0xa1⟩,
    ⟨0xD208, 0xc0⟩, ⟨0xD209, 0xee⟩, ⟨0xD20A, 0x55⟩, ⟨0xD20B, 0x10⟩, ⟨0xD20C, 0x2c⟩, ⟨0xD20D, 0x43⟩,
    ⟨0xD20E, 0x57⟩, ⟨0xD20F, 0x55⟩, ⟨0xD210, 0x68⟩, ⟨0xD211, 0x78⟩, ⟨0xD212, 0x87⟩, ⟨0xD213, 0x94⟩,
    ⟨0xD214, 0x55⟩, ⟨0xD215, 0xa0⟩, ⟨0xD216, 0xac⟩, ⟨0xD217, 0xb6⟩, ⟨0xD218, 0xc1⟩, ⟨0xD219, 0x55⟩,
    ⟨0xD21A, 0xcb⟩, ⟨0xD21B, 0xcd⟩, ⟨0xD21C, 0xd6⟩, ⟨0xD21D, 0xdf⟩, ⟨0xD21E, 0x95⟩, ⟨0xD21F, 0xe8⟩,
    ⟨0xD220, 0xf1⟩, ⟨0xD221, 0xfa⟩, ⟨0xD222, 0x02⟩, ⟨0xD223, 0xaa⟩, ⟨0xD224, 0x0b⟩, ⟨0xD225, 0x13⟩
  ]

/-- Entries 96 to 143 of the static table `regs` of `init`. -/
def regs_2 : List writereg_t := [
    ⟨0xD226, 0x1d⟩, ⟨0xD227, 0x26⟩, ⟨0xD228, 0xaa⟩, ⟨0xD229, 0x30⟩, ⟨0xD22A, 0x3c⟩, ⟨0xD22B, 0x4a⟩,
    ⟨0xD22C, 0x63⟩, ⟨0xD22D, 0xea⟩, ⟨0xD22E, 0x79⟩, ⟨0xD22F, 0xa6⟩, ⟨0xD230, 0xd0⟩, ⟨0xD231, 0x20⟩,
    ⟨0xD232, 0x0f⟩, ⟨0xD233, 0x8e⟩, ⟨0xD234, 0xff⟩, ⟨0xD300, 0x00⟩, ⟨0xD301, 0x00⟩, ⟨0xD302, 0x1b⟩,
    ⟨0xD303, 0x44⟩, ⟨0xD304, 0x62⟩, ⟨0xD305, 0x00⟩, ⟨0xD306, 0x7b⟩, ⟨0xD307, 0xa1⟩, ⟨0xD308, 0xc0⟩,
    ⟨0xD309, 0xee⟩, ⟨0xD30A, 0x55⟩, ⟨0xD30B, 0x10⟩, ⟨0xD30C, 0x2c⟩, ⟨0xD30D, 0x43⟩, ⟨0xD30E, 0x57⟩,
    ⟨0xD30F, 0x55⟩, ⟨0xD310, 0x68⟩, ⟨0xD311, 0x78⟩, ⟨0xD312, 0x87⟩, ⟨0xD313, 0x94⟩, ⟨0xD314, 0x55⟩,
    ⟨0xD315, 0xa0⟩, ⟨0xD316, 0xac⟩, ⟨0xD317, 0xb6⟩, ⟨0xD318, 0xc1⟩, ⟨0xD319, 0x55⟩, ⟨0xD31A, 0xcb⟩,
    ⟨0xD31B, 0xcd⟩, ⟨0xD31C, 0xd6⟩, ⟨0xD31D, 0xdf⟩, ⟨0xD31E, 0x95⟩, ⟨0xD31F, 0xe8⟩, ⟨0xD320, 0xf1⟩
  ]

/-- Entries 144 to 191 of the static table `regs` of `init`. -/
def regs_3 : List writereg_t := [
    ⟨0xD321, 0xfa⟩, ⟨0xD322, 0x02⟩, ⟨0xD323, 0xaa⟩, ⟨0xD324, 0x0b⟩, ⟨0xD325, 0x13⟩, ⟨0xD326, 0x1d⟩,
    ⟨0xD327, 0x26⟩, ⟨0xD328, 0xaa⟩, ⟨0xD329, 0x30⟩, ⟨0xD32A, 0x3c⟩, ⟨0xD32B, 0x4A⟩, ⟨0xD32C, 0x63⟩,
    ⟨0xD32D, 0xea⟩, ⟨0xD32E, 0x79⟩, ⟨0xD32F, 0xa6⟩, ⟨0xD330, 0xd0⟩, ⟨0xD331, 0x20⟩, ⟨0xD332, 0x0f⟩,
    ⟨0xD333, 0x8e⟩, ⟨0xD334, 0xff⟩, ⟨0xD400, 0x00⟩, ⟨0xD401, 0x00⟩, ⟨0xD402, 0x1b⟩, ⟨0xD403, 0x44⟩,
    ⟨0xD404, 0x62⟩, ⟨0xD405, 0x00⟩, ⟨0xD406, 0x7b⟩, ⟨0xD407, 0xa1⟩, ⟨0xD408, 0xc0⟩, ⟨0xD409, 0xee⟩,
    ⟨0xD40A, 0x55⟩, ⟨0xD40B, 0x10⟩, ⟨0xD40C, 0x2c⟩, ⟨0xD40D, 0x43⟩, ⟨0xD40E, 0x57⟩, ⟨0xD40F, 0x55⟩,
    ⟨0xD410, 0x68⟩, ⟨0xD411, 0x78⟩, ⟨0xD412, 0x87⟩, ⟨0xD413, 0x94⟩, ⟨0xD414, 0x55⟩, ⟨0xD415, 0xa0⟩,
    ⟨0xD416, 0xac⟩, ⟨0xD417, 0xb6⟩, ⟨0xD418, 0xc1⟩, ⟨0xD419, 0x55⟩, ⟨0xD41A, 0xcb⟩, ⟨0xD41B, 0xcd⟩
  ]

/-- Entries 192 to 239 of the static table `regs` of `init`. -/
def regs_4 : List writereg_t := [
    ⟨0xD41C, 0xd6⟩, ⟨0xD41D, 0xdf⟩, ⟨0xD41E, 0x95⟩, ⟨0xD41F, 0xe8⟩, ⟨0xD420, 0xf1⟩, ⟨0xD421, 0xfa⟩,
    ⟨0xD422, 0x02⟩, ⟨0xD423, 0xaa⟩, ⟨0xD424, 0x0b⟩, ⟨0xD425, 0x13⟩, ⟨0xD426, 0x1d⟩, ⟨0xD427, 0x26⟩,
    ⟨0xD428, 0xaa⟩, ⟨0xD429, 0x30⟩, ⟨0xD42A, 0x3c⟩, ⟨0xD42B, 0x4A⟩, ⟨0xD42C, 0x63⟩, ⟨0xD42D, 0xea⟩,
    ⟨0xD42E, 0x79⟩, ⟨0xD42F, 0xa6⟩, ⟨0xD430, 0xd0⟩, ⟨0xD431, 0x20⟩, ⟨0xD432, 0x0f⟩, ⟨0xD433, 0x8e⟩,
    ⟨0xD434, 0xff⟩, ⟨0xD500, 0x00⟩, ⟨0xD501, 0x00⟩, ⟨0xD502, 0x1b⟩, ⟨0xD503, 0x44⟩, ⟨0xD504, 0x62⟩,
    ⟨0xD505, 0x00⟩, ⟨0xD506, 0x7b⟩, ⟨0xD507, 0xa1⟩, ⟨0xD508, 0xc0⟩, ⟨0xD509, 0xee⟩, ⟨0xD50A, 0x55⟩,
    ⟨0xD50B, 0x10⟩, ⟨0xD50C, 0x2c⟩, ⟨0xD50D, 0x43⟩, ⟨0xD50E, 0x57⟩, ⟨0xD50F, 0x55⟩, ⟨0xD510, 0x68⟩,
    ⟨0xD511, 0x78⟩, ⟨0xD512, 0x87⟩, ⟨0xD513, 0x94⟩, ⟨0xD514, 0x55⟩, ⟨0xD515, 0xa0⟩, ⟨0xD516, 0xac⟩
  ]

/-- Entries 240 to 287 of the static table `regs` of `init`. -/
def regs_5 : List writereg_t := [
    ⟨0xD517, 0xb6⟩, ⟨0xD518, 0xc1⟩, ⟨0xD519, 0x55⟩, ⟨0xD51A, 0xcb⟩, ⟨0xD51B, 0xcd⟩, ⟨0xD51C, 0xd6⟩,
    ⟨0xD51D, 0xdf⟩, ⟨0xD51E, 0x95⟩, ⟨0xD51F, 0xe8⟩, ⟨0xD520, 0xf1⟩, ⟨0xD521, 0xfa⟩, ⟨0xD522, 0x02⟩,
    ⟨0xD523, 0xaa⟩, ⟨0xD524, 0x0b⟩, ⟨0xD525, 0x13⟩, ⟨0xD526, 0x1d⟩, ⟨0xD527, 0x26⟩, ⟨0xD528, 0xaa⟩,
    ⟨0xD529, 0x30⟩, ⟨0xD52A, 0x3c⟩, ⟨0xD52B, 0x4a⟩, ⟨0xD52C, 0x63⟩, ⟨0xD52D, 0xea⟩, ⟨0xD52E, 0x79⟩,
    ⟨0xD52F, 0xa6⟩, ⟨0xD530, 0xd0⟩, ⟨0xD531, 0x20⟩, ⟨0xD532, 0x0f⟩, ⟨0xD533, 0x8e⟩, ⟨0xD534, 0xff⟩,
    ⟨0xD600, 0x00⟩, ⟨0xD601, 0x00⟩, ⟨0xD602, 0x1b⟩, ⟨0xD603, 0x44⟩, ⟨0xD604, 0x62⟩, ⟨0xD605, 0x00⟩,
    ⟨0xD606, 0x7b⟩, ⟨0xD607, 0xa1⟩, ⟨0xD608, 0xc0⟩, ⟨0xD609, 0xee⟩, ⟨0xD60A, 0x55⟩, ⟨0xD60B, 0x10⟩,
    ⟨0xD60C, 0x2c⟩, ⟨0xD60D, 0x43⟩, ⟨0xD60E, 0x57⟩, ⟨0xD60F, 0x55⟩, ⟨0xD610, 0x68⟩, ⟨0xD611, 0x78⟩
  ]

/-- Entries 288 to 335 of the static table `regs` of `init`. -/
def regs_6 : List writereg_t := [
    ⟨0xD612, 0x87⟩, ⟨0xD613, 0x94⟩, ⟨0xD614, 0x55⟩, ⟨0xD615, 0xa0⟩, ⟨0xD616, 0xac⟩, ⟨0xD617, 0xb6⟩,
    ⟨0xD618, 0xc1⟩, ⟨0xD619, 0x55⟩, ⟨0xD61A, 0xcb⟩, ⟨0xD61B, 0xcd⟩, ⟨0xD61C, 0xd6⟩, ⟨0xD61D, 0xdf⟩,
    ⟨0xD61E, 0x95⟩, ⟨0xD61F, 0xe8⟩, ⟨0xD620, 0xf1⟩, ⟨0xD621, 0xfa⟩, ⟨0xD622, 0x02⟩, ⟨0xD623, 0xaa⟩,
    ⟨0xD624, 0x0b⟩, ⟨0xD625, 0x13⟩, ⟨0xD626, 0x1d⟩, ⟨0xD627, 0x26⟩, ⟨0xD628, 0xaa⟩, ⟨0xD629, 0x30⟩,
    ⟨0xD62A, 0x3c⟩, ⟨0xD62B, 0x4A⟩, ⟨0xD62C, 0x63⟩, ⟨0xD62D, 0xea⟩, ⟨0xD62E, 0x79⟩, ⟨0xD62F, 0xa6⟩,
    ⟨0xD630, 0xd0⟩, ⟨0xD631, 0x20⟩, ⟨0xD632, 0x0f⟩, ⟨0xD633, 0x8e⟩, ⟨0xD634, 0xff⟩, ⟨0xB000, 0x05⟩,
    ⟨0xB001, 0x05⟩, ⟨0xB002, 0x05⟩, ⟨0xB100, 0x05⟩, ⟨0xB101, 0x05⟩, ⟨0xB102, 0x05⟩, ⟨0xB600, 0x34⟩,
    ⟨0xB601, 0x34⟩, ⟨0xB603, 0x34⟩, ⟨0xB700, 0x24⟩, ⟨0xB701, 0x24⟩, ⟨0xB702, 0x24⟩, ⟨0xB800, 0x24⟩
  ]

/-- Entries 336 to 380 of the static table `regs` of `init`. -/
def regs_7 : List writereg_t := [
    ⟨0xB801, 0x24⟩, ⟨0xB802, 0x24⟩, ⟨0xBA00, 0x14⟩, ⟨0xBA01, 0x14⟩, ⟨0xBA02, 0x14⟩, ⟨0xB900, 0x24⟩,
    ⟨0xB901, 0x24⟩, ⟨0xB902, 0x24⟩, ⟨0xBc00, 0x00⟩, ⟨0xBc01, 0xa0⟩, ⟨0xBc02, 0x00⟩, ⟨0xBd00, 0x00⟩,
    ⟨0xBd01, 0xa0⟩, ⟨0xBd02, 0x00⟩, ⟨0xBe01, 0x3d⟩, ⟨0xF000, 0x55⟩, ⟨0xF001, 0xAA⟩, ⟨0xF002, 0x52⟩,
    ⟨0xF003, 0x08⟩, ⟨0xF004, 0x00⟩, ⟨0xB400, 0x10⟩, ⟨0xBC00, 0x05⟩, ⟨0xBC01, 0x05⟩, ⟨0xBC02, 0x05⟩,
    ⟨0xB700, 0x22⟩, ⟨0xB701, 0x22⟩, ⟨0xC80B, 0x2A⟩, ⟨0xC80C, 0x2A⟩, ⟨0xC80F, 0x2A⟩, ⟨0xC810, 0x2A⟩,
    ⟨0xd000, 0x01⟩, ⟨0xb300, 0x10⟩, ⟨0xBd02, 0x07⟩, ⟨0xBe02, 0x07⟩, ⟨0xBf02, 0x07⟩, ⟨0xF000, 0x55⟩,
    ⟨0xF001, 0xAA⟩, ⟨0xF002, 0x52⟩, ⟨0xF003, 0x08⟩, ⟨0xF004, 0x02⟩, ⟨0xc301, 0xa9⟩, ⟨0xfe01, 0x94⟩,
    ⟨0xf600, 0x60⟩, ⟨0x3500, 0x00⟩, ⟨0xFFFF, 0xFF⟩
  ]

/-- The static table `regs` of `init`, entry by entry: 380 register writes and
the sentinel that ends them. -/
def regs : List writereg_t :=
  regs_0 ++ regs_1 ++ regs_2 ++ regs_3 ++ regs_4 ++ regs_5 ++ regs_6 ++ regs_7

/-- Why a run of the model stopped without a result. -/
inductive Fault where
  | out_of_fuel
  | out_of_bounds
  deriving DecidableEq, Repr

/-- The loop of `init`, `for (idx = 0; regs[idx].cmd != 0xFFFF; ++idx)`, from
index `idx` on.  Reading `regs[idx]` outside the table is a fault of its own. -/
def init_loop (regs : List writereg_t) : Nat → Nat → Panel → Except Fault Panel
  | 0, _, _ => .error .out_of_fuel
  | fuel + 1, idx, p =>
    match regs[idx]? with
    | none => .error .out_of_bounds
    | some r =>
      if r.cmd ≠ 0xFFFF then init_loop regs fuel (idx + 1) (writeRegister r.cmd r.data p)
      else .ok p

/-- `init(use_reset)`.  `Panel_Device::init` belongs to the base class and is a
parameter: it yields its result and the state it leaves. -/
def init (fuel : Nat) (Panel_Device_init : Bool → Panel → Bool × Panel) (use_reset : Bool)
    (p : Panel) : Except Fault (Bool × Panel) :=
  let base := Panel_Device_init use_reset p
  if !base.1 then .ok (false, base.2)
  else
    let p1 := { base.2 with _width := base.2._cfg.panel_width,
                            _height := base.2._cfg.panel_height }
    match init_loop regs fuel 0 (startWrite p1) with
    | .error e => .error e
    | .ok p2 => .ok (true, p2)

/-! ## Brightness, rotation, inversion, sleep -/

/-- `setBrightness(brightness)`; the parameter is a `uint8_t`. -/
def setBrightness (brightness : Nat) (p : Panel) : Panel :=
  p |> startWrite
    |> cs_control false
    |> write_cmd 0x51
    |> bus_writeCommand (brightness % 256) 8
    |> bus_wait
    |> cs_control true
    |> endWrite

/-- `setRotation(r)`.  The offsets and memory sizes the code swaps along with
the panel size are locals that are never stored, and are left out. -/
def setRotation (r : Nat) (p : Panel) : Panel :=
  let r := r &&& 7
  let internal_rotation :=
    ((r + p._cfg.offset_rotation) &&& 3) ||| ((r &&& 4) ^^^ (p._cfg.offset_rotation &&& 4))
  let swap : Bool := decide (internal_rotation &&& 1 ≠ 0)
  let pw := if swap then p._cfg.panel_height else p._cfg.panel_width
  let ph := if swap then p._cfg.panel_width else p._cfg.panel_height
  { p with _rotation := r, _internal_rotation := internal_rotation,
           _width := pw, _height := ph,
           _xs := INT16_MAX, _xe := INT16_MAX, _ys := INT16_MAX, _ye := INT16_MAX }

/-- `setInvert(invert)`. -/
def setInvert (invert : Bool) (p : Panel) : Panel :=
  let p := cs_control false p
  let p := if invert then write_cmd 0x21 p else write_cmd 0x20 p
  p |> bus_wait |> cs_control true

/-- `delay(ms)`. -/
def delay (ms : Nat) (p : Panel) : Panel := emit (.delay ms) p

/-- `setSleep(flg)`. -/
def setSleep (flg : Bool) (p : Panel) : Panel :=
  let p := cs_control false p
  let p := if flg then write_cmd 0x10 p else (p |> write_cmd 0x11 |> delay 150)
  p |> bus_wait |> cs_control true

/-- `setPowerSave(flg)`: empty body. -/
def setPowerSave (_flg : Bool) (p : Panel) : Panel := p

/-- `waitDisplay()`: empty body. -/
def waitDisplay (p : Panel) : Panel := p

/-- `displayBusy()`. -/
def displayBusy (p : Panel) : Bool × Panel := (false, p)

/-- `setColorDepth(depth)`. -/
def setColorDepth (depth : color_depth_t) (p : Panel) : color_depth_t × Panel :=
  let cmd_send : Option Nat :=
    if depth = .rgb565_2Byte then some 0x55
    else if depth = .rgb666_3Byte then some 0x66
    else if depth = .rgb888_3Byte then some 0x77
    else none
  match cmd_send with
  | none => (p._write_depth, p)
  | some c =>
    let p := { p with _write_depth := depth }
    let p := p |> startWrite
               |> cs_control false
               |> write_cmd 0x3A
               |> bus_writeCommand c 8
               |> bus_wait
               |> cs_control true
               |> endWrite
    (p._write_depth, p)

/-! ## Transactions -/

/-- `beginTransaction()`. -/
def beginTransaction (p : Panel) : Panel :=
  if p._in_transaction then p
  else emit .beginTransaction { p with _in_transaction := true }

/-- `endTransaction()`. -/
def endTransaction (p : Panel) : Panel :=
  if !p._in_transaction then p
  else
    let p := { p with _in_transaction := false }
    let p := if p._has_align_data then emit (.writeData 0 8) { p with _has_align_data := false }
             else p
    emit .endTransaction p

/-! ## Pixel writes -/

/-- The fields of `pixelcopy_t` (declared in `misc/pixelcopy.hpp`) read or
written by the driver.  `src_data` is the base every `DataPtr.src` offset is
relative to.  `src_x` and `src_y` are signed. -/
structure pixelcopy_t where
  transp : Nat
  no_convert : Bool
  src_x : Int
  src_y : Int
  src_bitwidth : Nat
  src_x32_add : Nat
  src_y32_add : Nat
  dst_bits : Nat
  deriving DecidableEq, Repr

/-- The constant `pixelcopy_t::NON_TRANSP`. -/
def NON_TRANSP : Nat := 1 <<< 24

/-- The constant `pixelcopy_t::FP_SCALE`. -/
def FP_SCALE : Nat := 16

/-- What the collaborators answer and do to `*param`: the answer of
`_bus->busy()`, the effect of `_bus->writePixels(param, len)` on `*param`, and
the two function pointers `param->fp_copy(buf, index, last, param)` and
`param->fp_skip(index, last, param)`, each with its result and its effect on
`*param`. -/
structure Env where
  busy : Bool
  bus_writePixels : pixelcopy_t → Nat → pixelcopy_t
  fp_copy : Nat → Nat → pixelcopy_t → Nat × pixelcopy_t
  fp_skip : Nat → Nat → pixelcopy_t → Nat × pixelcopy_t

/-- `write_bytes(data, len, use_dma)`. -/
def write_bytes (data : DataPtr) (len : Nat) (use_dma : Bool) (p : Panel) : Panel :=
  p |> start_qspi
    |> emit (.writeBytes data len true use_dma)
    |> bus_wait
    |> end_qspi

/-- `writeBlock(rawcolor, len)`. -/
def writeBlock (rawcolor len : Nat) (p : Panel) : Panel :=
  p |> start_qspi
    |> emit (.writeDataRepeat rawcolor p._write_bits len)
    |> bus_wait
    |> end_qspi

/-- `writePixels(param, len, use_dma)`; yields `*param` as the bus leaves it. -/
def writePixels (env : Env) (param : pixelcopy_t) (len : Nat) (use_dma : Bool) (p : Panel) :
    pixelcopy_t × Panel :=
  let p := start_qspi p
  let (param, p) :=
    if param.no_convert then
      (param, emit (.writeBytes (.src 0) (umul len p._write_bits >>> 3) true use_dma) p)
    else
      (env.bus_writePixels param len, emit (.writePixels len) p)
  let p :=
    if p._cfg.dlen_16bit && decide (p._write_bits &&& 15 ≠ 0) && decide (len &&& 1 ≠ 0) then
      { p with _has_align_data := !p._has_align_data }
    else p
  (param, p |> bus_wait |> end_qspi)

/-- `drawPixelPreclipped(x, y, rawcolor)`. -/
def drawPixelPreclipped (x y rawcolor : Nat) (p : Panel) : Panel :=
  let p := setWindow x y x y p
  let p := if p._cfg.dlen_16bit then
             { p with _has_align_data := decide (p._write_bits &&& 15 ≠ 0) }
           else p
  p |> start_qspi
    |> emit (.writeData rawcolor p._write_bits)
    |> bus_wait
    |> end_qspi

/-- `writeFillRectPreclipped(x, y, w, h, rawcolor)`. -/
def writeFillRectPreclipped (x y w h rawcolor : Nat) (p : Panel) : Panel :=
  let len := umul w h
  let xe := usub (uadd w x) 1
  let ye := usub (uadd y h) 1
  let p := setWindow x y xe ye p
  p |> start_qspi
    |> emit (.writeDataRepeat rawcolor p._write_bits len)
    |> bus_wait
    |> end_qspi

/-! ## writeImage -/

/-- The constant `WRITEPIXELS_MAXLEN` of `writeImage`. -/
def WRITEPIXELS_MAXLEN : Nat := 32767

/-- Conversion of a signed value to `uint32_t`. -/
def toUInt32 (i : Int) : Nat := (i % (2 ^ 32 : Int)).toNat

/-- The loop `do { _bus->addDMAQueue(src, wb); src += add; } while (--h);` of
`writeImage`; `src` is the byte offset into the source image. -/
def writeImage_queue_loop (wb add : Nat) : Nat → Nat → Nat → Panel → Option Panel
  | 0, _, _, _ => none
  | fuel + 1, src, h, p =>
    let p := emit (.addDMAQueue (.src src) wb) p
    let src := src + add
    let h := usub h 1
    if h ≠ 0 then writeImage_queue_loop wb add fuel src h p else some p

/-- The loop `do { write_bytes(src, wb, false); src += add; } while (--h);` of
`writeImage`. -/
def writeImage_rows_loop (wb add : Nat) : Nat → Nat → Nat → Panel → Option Panel
  | 0, _, _, _ => none
  | fuel + 1, src, h, p =>
    let p := write_bytes (.src src) wb false p
    let src := src + add
    let h := usub h 1
    if h ≠ 0 then writeImage_rows_loop wb add fuel src h p else some p

/-- The loop `do { param->src_x = src_x; writePixels(param, w * h_step, use_dma);
param->src_y += h_step; } while (h -= h_step);` of `writeImage`. -/
def writeImage_chunk_loop (env : Env) (src_x : Int) (w h_step : Nat) (use_dma : Bool) :
    Nat → Nat → pixelcopy_t → Panel → Option (pixelcopy_t × Panel)
  | 0, _, _, _ => none
  | fuel + 1, h, param, p =>
    let param := { param with src_x := src_x }
    let r := writePixels env param (umul w h_step) use_dma p
    let param := { r.1 with src_y := r.1.src_y + h_step }
    let h := usub h h_step
    if h ≠ 0 then writeImage_chunk_loop env src_x w h_step use_dma fuel h param r.2
    else some (param, r.2)

/-- The loop `while (--h) { param->src_x = src_x; param->src_y++; buf =
_bus->getDMABuffer(wb); param->fp_copy(buf, 0, w, param); write_bytes(buf, wb,
true); }` of `writeImage`. -/
def writeImage_busy_loop (env : Env) (src_x : Int) (w wb : Nat) :
    Nat → Nat → pixelcopy_t → Panel → Option (pixelcopy_t × Panel)
  | 0, _, _, _ => none
  | fuel + 1, h, param, p =>
    let h := usub h 1
    if h ≠ 0 then
      let param := { param with src_x := src_x, src_y := param.src_y + 1 }
      let p := emit (.getDMABuffer wb) p
      let r := env.fp_copy 0 w param
      let p := write_bytes .dmaBuffer wb true p
      writeImage_busy_loop env src_x w wb fuel h r.2 p
    else some (param, p)

/-- The inner loop of the transparent path of `writeImage`, over the runs of
opaque pixels of one row: `while (w != (i = param->fp_skip(i, w, param))) { ...
if (w == (i += len)) break; }`. -/
def writeImage_transp_row (env : Env) (x y w wb bytes : Nat) :
    Nat → Nat → pixelcopy_t → Panel → Option (pixelcopy_t × Panel)
  | 0, _, _, _ => none
  | fuel + 1, i, param, p =>
    let s := env.fp_skip i w param
    let i := s.1
    if w ≠ i then
      let p := emit (.getDMABuffer wb) p
      let c := env.fp_copy 0 (usub w i) s.2
      let len := c.1
      let p := setWindow (uadd x i) y (usub (uadd (uadd x i) len) 1) y p
      let p := write_bytes .dmaBuffer (umul len bytes) true p
      let i := uadd i len
      if w = i then some (c.2, p)
      else writeImage_transp_row env x y w wb bytes fuel i c.2 p
    else some (s.2, p)

/-- The outer loop of the transparent path of `writeImage`, over the rows:
`do { uint32_t i = 0; ... param->src_x = src_x; param->src_y++; } while (++y != h);`. -/
def writeImage_transp_loop (env : Env) (src_x : Int) (x w wb bytes h rowFuel : Nat) :
    Nat → Nat → pixelcopy_t → Panel → Option (pixelcopy_t × Panel)
  | 0, _, _, _ => none
  | fuel + 1, y, param, p =>
    match writeImage_transp_row env x y w wb bytes rowFuel 0 param p with
    | none => none
    | some r =>
      let param := { r.1 with src_x := src_x, src_y := r.1.src_y + 1 }
      let y := uadd y 1
      if y ≠ h then writeImage_transp_loop env src_x x w wb bytes h rowFuel fuel y param r.2
      else some (param, r.2)

/-- `writeImage(x, y, w, h, param, use_dma)`; yields `*param` as the call leaves
it, or nothing when a loop has not ended within `fuel` rounds.  A division by
`w = 0`, undefined in the source, yields 0 here. -/
def writeImage (fuel : Nat) (env : Env) (x y w h : Nat) (param : pixelcopy_t) (use_dma : Bool)
    (p : Panel) : Option (pixelcopy_t × Panel) :=
  let bytes := param.dst_bits >>> 3
  let src_x := param.src_x
  if param.transp = NON_TRANSP then
    if param.no_convert then
      let wb := umul w bytes
      let i := toUInt32 ((src_x + param.src_y * param.src_bitwidth) * bytes)
      let p := setWindow x y (usub (uadd x w) 1) (usub (uadd y h) 1) p
      if param.src_bitwidth = w ∨ h = 1 then
        some (param, write_bytes (.src i) (umul wb h) use_dma p)
      else
        let add := umul param.src_bitwidth bytes
        if use_dma then
          let p :=
            if p._cfg.dlen_16bit && decide (umul wb h &&& 1 ≠ 0) then
              { p with _has_align_data := !p._has_align_data }
            else p
          match writeImage_queue_loop wb add fuel i h p with
          | none => none
          | some p => some (param, emit .execDMAQueue p)
        else
          match writeImage_rows_loop wb add fuel i h p with
          | none => none
          | some p => some (param, p)
    else
      if !env.busy then
        let p := setWindow x y (usub (uadd x w) 1) (usub (uadd y h) 1) p
        let nogap : Bool :=
          decide (h = 1) ||
            (decide (param.src_y32_add = 0) &&
              decide ((param.src_bitwidth <<< FP_SCALE) % UINT32_MOD = umul w param.src_x32_add))
        if nogap && decide (umul w h ≤ WRITEPIXELS_MAXLEN) then
          some (writePixels env param (umul w h) use_dma p)
        else
          let h_step := if nogap then WRITEPIXELS_MAXLEN / w else 1
          let h_len := if h_step > 1 then (usub h 1) % h_step + 1 else 1
          let r := writePixels env param (umul w h_len) use_dma p
          let h := usub h h_len
          if h ≠ 0 then
            let param := { r.1 with src_y := r.1.src_y + h_len }
            writeImage_chunk_loop env src_x w h_step use_dma fuel h param r.2
          else some r
      else
        let wb := umul w bytes
        let p := emit (.getDMABuffer wb) p
        let c := env.fp_copy 0 w param
        let p := setWindow x y (usub (uadd x w) 1) (usub (uadd y h) 1) p
        let p := write_bytes .dmaBuffer wb true p
        let p := { p with _has_align_data :=
                     p._cfg.dlen_16bit && decide (p._write_bits &&& 15 ≠ 0) &&
                       decide (w &&& h &&& 1 ≠ 0) }
        writeImage_busy_loop env src_x w wb fuel h c.2 p
  else
    let h := uadd h y
    let wb := umul w bytes
    writeImage_transp_loop env src_x x w wb bytes h fuel fuel y param p

/-! ## Read back -/

/-- `readCommand(cmd, index, len)`. -/
def readCommand (_cmd _index _len : Nat) (p : Panel) : Nat × Panel := (0, p)

/-- `readData(index, len)`. -/
def readData (_index _len : Nat) (p : Panel) : Nat × Panel := (0, p)

/-- `readRect(x, y, w, h, dst, param)`; yields the destination buffer and
`*param` as the call leaves them. -/
def readRect (_x _y _w _h : Nat) (dst : List Nat) (param : pixelcopy_t) (p : Panel) :
    List Nat × pixelcopy_t × Panel := (dst, param, p)

/-! ## Observations on the log -/

/-- The calls a step appended to the log of `p`. -/
def emitted (p q : Panel) : List Call := q.log.drop p.log.length

/-- The data argument of a `writeCommand` call. -/
def commandData : Call → Nat
  | .writeCommand d _ => d
  | _ => 0

/-- The 16 bit value carried by the two command bytes at positions `i` and
`i + 1` of a list of calls, high byte first. -/
def decode16 (calls : List Call) (i : Nat) : Nat :=
  commandData (calls.getD i .wait) * 256 + commandData (calls.getD (i + 1) .wait)

/-- Column start address in the calls of one `setWindow`. -/
def sentColumnStart (calls : List Call) : Nat := decode16 calls 5

/-- Column end address in the calls of one `setWindow`. -/
def sentColumnEnd (calls : List Call) : Nat := decode16 calls 7

/-- Row start address in the calls of one `setWindow`. -/
def sentRowStart (calls : List Call) : Nat := decode16 calls 16

/-- Row end address in the calls of one `setWindow`. -/
def sentRowEnd (calls : List Call) : Nat := decode16 calls 18

/-- The QSPI framing of a pixel payload, as the claims word it: CS low, the
header `32 00 2C 00`, wait, the payload, wait, the trailer `32 00 00 00`, wait,
CS high. -/
def qspiFramed (payload : List Call) : List Call :=
  [.cs_control false, .writeCommand 0x32 8, .writeCommand 0x00 8, .writeCommand 0x2C 8,
    .writeCommand 0x00 8, .wait] ++ payload ++
  [.wait, .writeCommand 0x32 8, .writeCommand 0x00 8, .writeCommand 0x00 8,
    .writeCommand 0x00 8, .wait, .cs_control true]

/-- The register writes of `init`: the table entries before the first one whose
`cmd` is `0xFFFF`. -/
def tableWrites : List writereg_t := regs.takeWhile fun r => decide (r.cmd ≠ 0xFFFF)

/-- The log entry of one `writeRegister(cmd, data)`. -/
def registerWrite (r : writereg_t) : Call := .writeRegister r.cmd r.data

/-- A base class `init` that succeeds and does nothing else. -/
def baseInitOk (_use_reset : Bool) (p : Panel) : Bool × Panel := (true, p)

/-- A source image descriptor: 16 bit pixels, rows 4 pixels apart, opaque. -/
def param16 (no_convert : Bool) : pixelcopy_t :=
  { transp := NON_TRANSP, no_convert := no_convert, src_x := 0, src_y := 0, src_bitwidth := 4,
    src_x32_add := 1 <<< FP_SCALE, src_y32_add := 0, dst_bits := 16 }

/-- Collaborators that leave `*param` alone, on an idle bus. -/
def idleEnv : Env :=
  { busy := false, bus_writePixels := fun q _ => q,
    fp_copy := fun _ last q => (last, q), fp_skip := fun i _ q => (i, q) }

/-- Whether a call is one of the four bytes of a QSPI header or trailer, which
both start with `0x32`. -/
def isQspiMarker : Call → Bool
  | .writeCommand 0x32 _ => true
  | _ => false

/-- The value of `_internal_rotation` as the claims word it: the rotation
direction `(r mod 8 + offset_rotation) mod 4` in the low two bits, and in bit 2
the exclusive or of bit 2 of `r` and bit 2 of `offset_rotation` (bit 2 of `n` is
`n / 4 % 2`). -/
def internalRotationSpec (r offset_rotation : Nat) : Nat :=
  (r % 8 + offset_rotation) % 4 + 4 * ((r / 4 % 2 + offset_rotation / 4 % 2) % 2)

/-- A panel in its reset state with the given configuration and size. -/
def mkPanel (cfg : config_t) (width height : Nat) : Panel :=
  { _cfg := cfg, _width := width, _height := height,
    _xs := 0, _xe := 0, _ys := 0, _ye := 0,
    _rotation := 0, _internal_rotation := 0,
    _write_depth := .rgb565_2Byte, _write_bits := 16,
    _in_transaction := false, _has_align_data := false, log := [] }

/-- A 10 x 10 panel. -/
def panel10 : Panel :=
  mkPanel { panel_width := 10, panel_height := 10, memory_width := 10, memory_height := 10,
            offset_x := 0, offset_y := 0, offset_rotation := 0, dlen_16bit := false } 10 10

/-- One call of a transaction method of the driver. -/
inductive TransactionCall where
  | begin_
  | end_
  deriving DecidableEq, Repr

/-- Run one transaction method. -/
def stepTransaction : TransactionCall → Panel → Panel
  | .begin_, p => beginTransaction p
  | .end_, p => endTransaction p

/-- Run a finite sequence of `beginTransaction` and `endTransaction` calls, in
order. -/
def runTransactions (ops : List TransactionCall) (p : Panel) : Panel :=
  ops.foldl (fun q op => stepTransaction op q) p

/-- Whether a logged call is the bus `beginTransaction` or `endTransaction`. -/
def isTransactionCall : Call → Bool
  | .beginTransaction => true
  | .endTransaction => true
  | _ => false

/-- Strict alternation of `beginTransaction` and `endTransaction`, and nothing
else, in a list of calls; `open_` tells whether a transaction is open at the
start, in which case `endTransaction` is due first. -/
def alternatesFrom : Bool → List Call → Bool
  | _, [] => true
  | false, .beginTransaction :: rest => alternatesFrom true rest
  | true, .endTransaction :: rest => alternatesFrom false rest
  | _, _ :: _ => false

/-- Whether the last call of a list is `beginTransaction`; `open_` when the list
is empty. -/
def openAfter : Bool → List Call → Bool
  | open_, [] => open_
  | _, c :: rest => openAfter (decide (c = .beginTransaction)) rest

/-- The shape of the calls forwarded to the bus by the transaction methods:
`beginTransaction` and `endTransaction` in strict alternation, where an
`endTransaction` may be preceded, immediately, by one padding `writeData(0, 8)`;
nothing else.  `open_` tells whether a transaction is open at the start. -/
def paddedAlternatesFrom : Bool → List Call → Bool
  | _, [] => true
  | false, .beginTransaction :: rest => paddedAlternatesFrom true rest
  | true, .endTransaction :: rest => paddedAlternatesFrom false rest
  | true, .writeData 0 8 :: .endTransaction :: rest => paddedAlternatesFrom false rest
  | _, _ :: _ => false

/-- The calls begin, begin, end, end, begin. -/
def sampleCalls : List TransactionCall := [.begin_, .begin_, .end_, .end_, .begin_]

/-- A 10 x 10 panel with an alignment byte pending. -/
def panelAligned : Panel := { panel10 with _has_align_data := true }

/-- The lengths handed to the bus `writePixels`, in the order of the calls. -/
def pixelLengths : List Call → List Nat
  | [] => []
  | .writePixels n :: rest => n :: pixelLengths rest
  | _ :: rest => pixelLengths rest

/-- The repeat counts handed to the bus `writeDataRepeat`, in the order of the
calls. -/
def repeatLengths : List Call → List Nat
  | [] => []
  | .writeDataRepeat _ _ n :: rest => n :: repeatLengths rest
  | _ :: rest => repeatLengths rest

/-- One QSPI framed bus `writePixels` per length, in order. -/
def framedRuns : List Nat → List Call
  | [] => []
  | n :: rest => qspiFramed [.writePixels n] ++ framedRuns rest

/-- The chunk lengths of the converting path of `writeImage` in closed form: the
whole image when it has no row gap and fits, and otherwise a first chunk of
`(h - 1) mod h_step + 1` rows followed by chunks of `h_step` rows. -/
def chunkLengths (w h : Nat) (nogap : Bool) : List Nat :=
  if nogap && decide (w * h ≤ WRITEPIXELS_MAXLEN) then [w * h]
  else
    let h_step := if nogap then WRITEPIXELS_MAXLEN / w else 1
    (w * ((h - 1) % h_step + 1)) :: List.replicate ((h - 1) / h_step) (w * h_step)

/-- Whether the image rows follow each other in the source without a gap, as
`writeImage` computes it. -/
def nogapOf (w h : Nat) (param : pixelcopy_t) : Bool :=
  decide (h = 1) ||
    (decide (param.src_y32_add = 0) &&
      decide ((param.src_bitwidth <<< FP_SCALE) % UINT32_MOD = umul w param.src_x32_add))

/-- A source image descriptor for 16 bit pixels to be converted, rows
`src_bitwidth` pixels apart. -/
def paramConvert (src_bitwidth : Nat) : pixelcopy_t :=
  { transp := NON_TRANSP, no_convert := false, src_x := 0, src_y := 0,
    src_bitwidth := src_bitwidth, src_x32_add := 1 <<< FP_SCALE, src_y32_add := 0,
    dst_bits := 16 }

/-- A 240 x 320 panel. -/
def panel240x320 : Panel :=
  mkPanel { panel_width := 240, panel_height := 320, memory_width := 240, memory_height := 320,
            offset_x := 0, offset_y := 0, offset_rotation := 0, dlen_16bit := false } 240 320

/-! ## Lemmas -/

theorem usub_of_le {a b : Nat} (h : b ≤ a) (ha : a < 2 ^ 32) : usub a b = a - b := by
  unfold usub UINT32_MOD
  have hb : b % 2 ^ 32 = b := Nat.mod_eq_of_lt (by omega)
  rw [hb]
  omega

theorem shift_and_decode (x : Nat) : (x >>> 8) * 256 + (x &&& 0xFF) = x := by
  have h1 : x >>> 8 = x / 256 := by
    rw [Nat.shiftRight_eq_div_pow]
  have h2 : x &&& 0xFF = x % 256 := by
    have := Nat.and_pow_two_sub_one_eq_mod x 8
    simpa using this
  rw [h1, h2]
  omega

theorem setWindow_log (xs ys xe ye : Nat) (p : Panel) :
    setWindow xs ys xe ye p =
      { p with log := p.log ++
        [ .cs_control false,
          .writeCommand 0x02 8, .writeCommand 0x00 8, .writeCommand 0x2A 8, .writeCommand 0x00 8,
          .writeCommand ((if usub xe xs ≥ p._width then 0 else xs) >>> 8) 8,
          .writeCommand ((if usub xe xs ≥ p._width then 0 else xs) &&& 0xFF) 8,
          .writeCommand ((if usub xe xs ≥ p._width then usub p._width 1 else xe) >>> 8) 8,
          .writeCommand ((if usub xe xs ≥ p._width then usub p._width 1 else xe) &&& 0xFF) 8,
          .wait, .cs_control true,
          .cs_control false,
          .writeCommand 0x02 8, .writeCommand 0x00 8, .writeCommand 0x2B 8, .writeCommand 0x00 8,
          .writeCommand ((if usub ye ys ≥ p._height then 0 else ys) >>> 8) 8,
          .writeCommand ((if usub ye ys ≥ p._height then 0 else ys) &&& 0xFF) 8,
          .writeCommand ((if usub ye ys ≥ p._height then usub p._height 1 else ye) >>> 8) 8,
          .writeCommand ((if usub ye ys ≥ p._height then usub p._height 1 else ye) &&& 0xFF) 8,
          .wait, .cs_control true,
          .cs_control false,
          .writeCommand 0x02 8, .writeCommand 0x00 8, .writeCommand 0x2C 8, .writeCommand 0x00 8,
          .wait, .cs_control true ] } := by
  simp [setWindow, write_cmd, cs_control, bus_writeCommand, bus_wait, emit]

theorem emitted_with_log (p : Panel) (l : List Call) :
    emitted p { p with log := p.log ++ l } = l := by
  simp [emitted]

theorem usub_one_le {a : Nat} (h : 1 ≤ a) : usub a 1 ≤ a - 1 := by
  unfold usub UINT32_MOD
  have h1 : 1 % 2 ^ 32 = 1 := by norm_num
  rw [h1]
  omega

theorem decode16_cons (c : Call) (l : List Call) (i : Nat) :
    decode16 (c :: l) (i + 1) = decode16 l i := by
  simp [decode16]

theorem decode16_pair (a b ba bb : Nat) (l : List Call) :
    decode16 (.writeCommand a ba :: .writeCommand b bb :: l) 0 = a * 256 + b := by
  simp [decode16, commandData]

/-- C1. For 16 bit `xs <= xe` and `ys <= ye`, with `(cs, ce)` and `(rs, re)` the
ranges left by the limit rule (`_width - 1` and `_height - 1` in the unsigned
arithmetic of the code), `setWindow` changes nothing but the log, to which it
appends exactly the column command `2A`, the row command `2B` and the memory
write command `2C`, each framed `02 00 op 00` inside its own CS low / CS high
pair; every address goes out high byte first and the two bytes decode back to
the address. -/
theorem setWindow_emits_fixed_sequence (p : Panel) (xs ys xe ye cs ce rs re : Nat)
    (hx : xs ≤ xe) (hxe : xe < 65536) (hy : ys ≤ ye) (hye : ye < 65536)
    (hc : (cs, ce) = if xe - xs ≥ p._width then (0, usub p._width 1) else (xs, xe))
    (hr : (rs, re) = if ye - ys ≥ p._height then (0, usub p._height 1) else (ys, ye)) :
    setWindow xs ys xe ye p =
      { p with log := p.log ++
        [ .cs_control false,
          .writeCommand 0x02 8, .writeCommand 0x00 8, .writeCommand 0x2A 8, .writeCommand 0x00 8,
          .writeCommand (cs >>> 8) 8, .writeCommand (cs &&& 0xFF) 8,
          .writeCommand (ce >>> 8) 8, .writeCommand (ce &&& 0xFF) 8,
          .wait, .cs_control true,
          .cs_control false,
          .writeCommand 0x02 8, .writeCommand 0x00 8, .writeCommand 0x2B 8, .writeCommand 0x00 8,
          .writeCommand (rs >>> 8) 8, .writeCommand (rs &&& 0xFF) 8,
          .writeCommand (re >>> 8) 8, .writeCommand (re &&& 0xFF) 8,
          .wait, .cs_control true,
          .cs_control false,
          .writeCommand 0x02 8, .writeCommand 0x00 8, .writeCommand 0x2C 8, .writeCommand 0x00 8,
          .wait, .cs_control true ] } ∧
    sentColumnStart (emitted p (setWindow xs ys xe ye p)) = cs ∧
    sentColumnEnd (emitted p (setWindow xs ys xe ye p)) = ce ∧
    sentRowStart (emitted p (setWindow xs ys xe ye p)) = rs ∧
    sentRowEnd (emitted p (setWindow xs ys xe ye p)) = re ∧
    (cs >>> 8) * 256 + (cs &&& 0xFF) = cs ∧ (ce >>> 8) * 256 + (ce &&& 0xFF) = ce ∧
    (rs >>> 8) * 256 + (rs &&& 0xFF) = rs ∧ (re >>> 8) * 256 + (re &&& 0xFF) = re := by
  have hxu : usub xe xs = xe - xs := usub_of_le hx (by omega)
  have hyu : usub ye ys = ye - ys := usub_of_le hy (by omega)
  have hcs : cs = if usub xe xs ≥ p._width then 0 else xs := by
    rw [hxu]; split_ifs at hc ⊢ <;> simp_all
  have hce : ce = if usub xe xs ≥ p._width then usub p._width 1 else xe := by
    rw [hxu]; split_ifs at hc ⊢ <;> simp_all
  have hrs : rs = if usub ye ys ≥ p._height then 0 else ys := by
    rw [hyu]; split_ifs at hr ⊢ <;> simp_all
  have hre : re = if usub ye ys ≥ p._height then usub p._height 1 else ye := by
    rw [hyu]; split_ifs at hr ⊢ <;> simp_all
  have hlog := setWindow_log xs ys xe ye p
  rw [← hcs, ← hce, ← hrs, ← hre] at hlog
  refine ⟨hlog, ?_, ?_, ?_, ?_, shift_and_decode cs, shift_and_decode ce,
    shift_and_decode rs, shift_and_decode re⟩
  · rw [hlog, emitted_with_log]
    simp only [sentColumnStart, decode16_cons, decode16_pair]
    exact shift_and_decode cs
  · rw [hlog, emitted_with_log]
    simp only [sentColumnEnd, decode16_cons, decode16_pair]
    exact shift_and_decode ce
  · rw [hlog, emitted_with_log]
    simp only [sentRowStart, decode16_cons, decode16_pair]
    exact shift_and_decode rs
  · rw [hlog, emitted_with_log]
    simp only [sentRowEnd, decode16_cons, decode16_pair]
    exact shift_and_decode re

/-- C1, at a concrete input: a 10 x 10 panel and the request `(2, 3) .. (300, 5)`,
whose columns are reset to `0 .. 9` and whose rows are kept. -/
theorem setWindow_emits_fixed_sequence_witness :
    setWindow 2 3 300 5 panel10 =
      { panel10 with log := panel10.log ++
        [ .cs_control false,
          .writeCommand 0x02 8, .writeCommand 0x00 8, .writeCommand 0x2A 8, .writeCommand 0x00 8,
          .writeCommand (0 >>> 8) 8, .writeCommand (0 &&& 0xFF) 8,
          .writeCommand (9 >>> 8) 8, .writeCommand (9 &&& 0xFF) 8,
          .wait, .cs_control true,
          .cs_control false,
          .writeCommand 0x02 8, .writeCommand 0x00 8, .writeCommand 0x2B 8, .writeCommand 0x00 8,
          .writeCommand (3 >>> 8) 8, .writeCommand (3 &&& 0xFF) 8,
          .writeCommand (5 >>> 8) 8, .writeCommand (5 &&& 0xFF) 8,
          .wait, .cs_control true,
          .cs_control false,
          .writeCommand 0x02 8, .writeCommand 0x00 8, .writeCommand 0x2C 8, .writeCommand 0x00 8,
          .wait, .cs_control true ] } ∧
    sentColumnStart (emitted panel10 (setWindow 2 3 300 5 panel10)) = 0 ∧
    sentColumnEnd (emitted panel10 (setWindow 2 3 300 5 panel10)) = 9 ∧
    sentRowStart (emitted panel10 (setWindow 2 3 300 5 panel10)) = 3 ∧
    sentRowEnd (emitted panel10 (setWindow 2 3 300 5 panel10)) = 5 ∧
    (0 >>> 8) * 256 + (0 &&& 0xFF) = 0 ∧ (9 >>> 8) * 256 + (9 &&& 0xFF) = 9 ∧
    (3 >>> 8) * 256 + (3 &&& 0xFF) = 3 ∧ (5 >>> 8) * 256 + (5 &&& 0xFF) = 5 :=
  setWindow_emits_fixed_sequence panel10 2 3 300 5 0 9 3 5
    (by decide) (by decide) (by decide) (by decide) (by decide) (by decide)

/-- C2 as stated fails: on a 10 x 10 panel the request for columns `100 .. 105`
spans fewer than 10 columns, is left alone by the limit rule, and the column
end address sent is 105, beyond `_width - 1 = 9`. -/
theorem setWindow_end_outside_panel :
    1 ≤ panel10._width ∧ 1 ≤ panel10._height ∧ (100 : Nat) ≤ 105 ∧ (105 : Nat) < 65536 ∧
    sentColumnEnd (emitted panel10 (setWindow 100 0 105 0 panel10)) = 105 ∧
    ¬ (sentColumnEnd (emitted panel10 (setWindow 100 0 105 0 panel10)) ≤ panel10._width - 1) := by
  decide

/-- C2, amended. For a panel with `_width >= 1` and `_height >= 1` and a 16 bit
request with `xs <= xe` and `ys <= ye`: a request at least as wide as the panel
(`xe - xs >= _width`) is sent as the full range `0 .. _width - 1`, any other
request is sent unchanged; so the column end address sent is `<= _width - 1`
whenever `xe - xs >= _width` or `xe <= _width - 1`, and the range sent has
`cs <= ce` and never spans more than `_width` columns.  Likewise for the rows,
with `ys`, `ye` and `_height`. -/
theorem setWindow_limits_extent (p : Panel) (xs ys xe ye : Nat)
    (hw : 1 ≤ p._width) (hh : 1 ≤ p._height)
    (hx : xs ≤ xe) (hxe : xe < 65536) (hy : ys ≤ ye) (hye : ye < 65536) :
    sentColumnStart (emitted p (setWindow xs ys xe ye p)) ≤
      sentColumnEnd (emitted p (setWindow xs ys xe ye p)) ∧
    sentColumnEnd (emitted p (setWindow xs ys xe ye p)) -
      sentColumnStart (emitted p (setWindow xs ys xe ye p)) ≤ p._width - 1 ∧
    sentRowStart (emitted p (setWindow xs ys xe ye p)) ≤
      sentRowEnd (emitted p (setWindow xs ys xe ye p)) ∧
    sentRowEnd (emitted p (setWindow xs ys xe ye p)) -
      sentRowStart (emitted p (setWindow xs ys xe ye p)) ≤ p._height - 1 ∧
    (xe ≤ p._width - 1 ∨ xe - xs ≥ p._width →
      sentColumnEnd (emitted p (setWindow xs ys xe ye p)) ≤ p._width - 1) ∧
    (ye ≤ p._height - 1 ∨ ye - ys ≥ p._height →
      sentRowEnd (emitted p (setWindow xs ys xe ye p)) ≤ p._height - 1) ∧
    (xe - xs ≥ p._width →
      sentColumnStart (emitted p (setWindow xs ys xe ye p)) = 0 ∧
      sentColumnEnd (emitted p (setWindow xs ys xe ye p)) = p._width - 1) ∧
    (xe - xs < p._width →
      sentColumnStart (emitted p (setWindow xs ys xe ye p)) = xs ∧
      sentColumnEnd (emitted p (setWindow xs ys xe ye p)) = xe) ∧
    (ye - ys ≥ p._height →
      sentRowStart (emitted p (setWindow xs ys xe ye p)) = 0 ∧
      sentRowEnd (emitted p (setWindow xs ys xe ye p)) = p._height - 1) ∧
    (ye - ys < p._height →
      sentRowStart (emitted p (setWindow xs ys xe ye p)) = ys ∧
      sentRowEnd (emitted p (setWindow xs ys xe ye p)) = ye) := by
  have hxu : usub xe xs = xe - xs := usub_of_le hx (by omega)
  have hyu : usub ye ys = ye - ys := usub_of_le hy (by omega)
  have hwu := usub_one_le hw
  have hhu := usub_one_le hh
  have hwe : xe - xs ≥ p._width → usub p._width 1 = p._width - 1 :=
    fun h => usub_of_le hw (by omega)
  have hhe : ye - ys ≥ p._height → usub p._height 1 = p._height - 1 :=
    fun h => usub_of_le hh (by omega)
  rw [setWindow_log, emitted_with_log]
  simp only [sentColumnStart, sentColumnEnd, sentRowStart, sentRowEnd, decode16_cons,
    decode16_pair, shift_and_decode, hxu, hyu]
  refine ⟨?_, ?_, ?_, ?_, ?_, ?_, ?_, ?_, ?_, ?_⟩
  · split_ifs <;> omega
  · split_ifs <;> omega
  · split_ifs <;> omega
  · split_ifs <;> omega
  · intro _
    split_ifs <;> omega
  · intro _
    split_ifs <;> omega
  · intro hreq
    rw [if_pos hreq, if_pos hreq, hwe hreq]
    exact ⟨rfl, rfl⟩
  · intro hreq
    rw [if_neg (by omega), if_neg (by omega)]
    exact ⟨rfl, rfl⟩
  · intro hreq
    rw [if_pos hreq, if_pos hreq, hhe hreq]
    exact ⟨rfl, rfl⟩
  · intro hreq
    rw [if_neg (by omega), if_neg (by omega)]
    exact ⟨rfl, rfl⟩

/-- C2, amended, at a concrete input: a 10 x 10 panel and the request
`(2, 3) .. (300, 5)`, whose columns are reset to `0 .. 9` and whose rows are
kept. -/
theorem setWindow_limits_extent_witness :
    sentColumnStart (emitted panel10 (setWindow 2 3 300 5 panel10)) ≤
      sentColumnEnd (emitted panel10 (setWindow 2 3 300 5 panel10)) ∧
    sentColumnEnd (emitted panel10 (setWindow 2 3 300 5 panel10)) -
      sentColumnStart (emitted panel10 (setWindow 2 3 300 5 panel10)) ≤ panel10._width - 1 ∧
    sentRowStart (emitted panel10 (setWindow 2 3 300 5 panel10)) ≤
      sentRowEnd (emitted panel10 (setWindow 2 3 300 5 panel10)) ∧
    sentRowEnd (emitted panel10 (setWindow 2 3 300 5 panel10)) -
      sentRowStart (emitted panel10 (setWindow 2 3 300 5 panel10)) ≤ panel10._height - 1 ∧
    (300 ≤ panel10._width - 1 ∨ 300 - 2 ≥ panel10._width →
      sentColumnEnd (emitted panel10 (setWindow 2 3 300 5 panel10)) ≤ panel10._width - 1) ∧
    (5 ≤ panel10._height - 1 ∨ 5 - 3 ≥ panel10._height →
      sentRowEnd (emitted panel10 (setWindow 2 3 300 5 panel10)) ≤ panel10._height - 1) ∧
    (300 - 2 ≥ panel10._width →
      sentColumnStart (emitted panel10 (setWindow 2 3 300 5 panel10)) = 0 ∧
      sentColumnEnd (emitted panel10 (setWindow 2 3 300 5 panel10)) = panel10._width - 1) ∧
    (300 - 2 < panel10._width →
      sentColumnStart (emitted panel10 (setWindow 2 3 300 5 panel10)) = 2 ∧
      sentColumnEnd (emitted panel10 (setWindow 2 3 300 5 panel10)) = 300) ∧
    (5 - 3 ≥ panel10._height →
      sentRowStart (emitted panel10 (setWindow 2 3 300 5 panel10)) = 0 ∧
      sentRowEnd (emitted panel10 (setWindow 2 3 300 5 panel10)) = panel10._height - 1) ∧
    (5 - 3 < panel10._height →
      sentRowStart (emitted panel10 (setWindow 2 3 300 5 panel10)) = 3 ∧
      sentRowEnd (emitted panel10 (setWindow 2 3 300 5 panel10)) = 5) :=
  setWindow_limits_extent panel10 2 3 300 5
    (by decide) (by decide) (by decide) (by decide) (by decide) (by decide)

theorem getElem?_at_length {α : Type} (l : List α) (a : α) (t : List α) :
    (l ++ a :: t)[l.length]? = some a := by
  induction l with
  | nil => simp
  | cons _ _ ih => simpa using ih

theorem init_loop_run (tbl : List writereg_t) (s : writereg_t) (rest : List writereg_t)
    (hs : s.cmd = 0xFFFF) :
    ∀ (todo done : List writereg_t), tbl = done ++ todo ++ s :: rest →
      (∀ r ∈ todo, r.cmd ≠ 0xFFFF) → ∀ (fuel : Nat), todo.length < fuel → ∀ (p : Panel),
      init_loop tbl fuel done.length p = .ok { p with log := p.log ++ todo.map registerWrite } := by
  intro todo
  induction todo with
  | nil =>
    intro done htbl _ fuel hf p
    obtain ⟨f, rfl⟩ : ∃ f, fuel = f + 1 := ⟨fuel - 1, by simp at hf; omega⟩
    have hget : tbl[done.length]? = some s := by
      rw [htbl, List.append_nil]; exact getElem?_at_length done s rest
    simp [init_loop, hget, hs]
  | cons r todo ih =>
    intro done htbl htodo fuel hf p
    obtain ⟨f, rfl⟩ : ∃ f, fuel = f + 1 := ⟨fuel - 1, by simp at hf; omega⟩
    have hget : tbl[done.length]? = some r := by
      rw [htbl, List.append_assoc]; exact getElem?_at_length done r (todo ++ s :: rest)
    have hr : r.cmd ≠ 0xFFFF := htodo r (by simp)
    have hrec := ih (done ++ [r]) (by rw [htbl]; simp)
      (fun q hq => htodo q (by simp [hq])) f (by simp at hf; omega)
      (writeRegister r.cmd r.data p)
    simp only [List.length_append, List.length_singleton] at hrec
    simp only [init_loop, hget]
    rw [if_pos hr, hrec]
    simp [writeRegister, emit, registerWrite]

set_option maxRecDepth 100000 in
theorem regs_split : regs = tableWrites ++ [⟨0xFFFF, 0xFF⟩] := by
  decide

set_option maxRecDepth 100000 in
theorem tableWrites_length : tableWrites.length = 380 := by
  decide

theorem tableWrites_no_sentinel : ∀ r ∈ tableWrites, r.cmd ≠ 0xFFFF := by
  intro r hr
  have := List.mem_takeWhile_imp hr
  simpa using this

/-- C3. `init(use_reset)` returns what the base class `init` returns.  When
that is `false` the state is the one the base class left: no register write,
`_width` and `_height` untouched.  When it is `true`, `_width` and `_height`
become the configured panel size and, after `startWrite`, `writeRegister` is
called once per table entry before the sentinel, in table order: 380 writes,
from `(0xF000, 0x55)` to `(0x3500, 0x00)`.  The sentinel `(0xFFFF, 0xFF)` is the
last entry and the only one with `cmd = 0xFFFF`; it is not written, and the
loop ends on it without reading outside the table. -/
theorem init_sends_register_table (Panel_Device_init : Bool → Panel → Bool × Panel)
    (use_reset : Bool) (p : Panel) (fuel : Nat) (hfuel : regs.length ≤ fuel) :
    ((Panel_Device_init use_reset p).1 = false →
      init fuel Panel_Device_init use_reset p =
        .ok (false, (Panel_Device_init use_reset p).2)) ∧
    ((Panel_Device_init use_reset p).1 = true →
      init fuel Panel_Device_init use_reset p =
        .ok (true,
          { (Panel_Device_init use_reset p).2 with
            _width := (Panel_Device_init use_reset p).2._cfg.panel_width,
            _height := (Panel_Device_init use_reset p).2._cfg.panel_height,
            log := (Panel_Device_init use_reset p).2.log ++
              .startWrite :: tableWrites.map registerWrite })) ∧
    regs = tableWrites ++ [⟨0xFFFF, 0xFF⟩] ∧
    regs.length = 381 ∧
    tableWrites.length = 380 ∧
    tableWrites.head? = some ⟨0xF000, 0x55⟩ ∧
    tableWrites.getLast? = some ⟨0x3500, 0x00⟩ ∧
    (∀ r ∈ tableWrites, r.cmd ≠ 0xFFFF) ∧
    Call.writeRegister 0xFFFF 0xFF ∉ tableWrites.map registerWrite := by
  have hlen : regs.length = 381 := by
    rw [regs_split, List.length_append, tableWrites_length]; rfl
  refine ⟨?_, ?_, regs_split, hlen, tableWrites_length, ?_, ?_, tableWrites_no_sentinel, ?_⟩
  · intro hb
    simp [init, hb]
  · intro hb
    have hrun := init_loop_run regs ⟨0xFFFF, 0xFF⟩ [] rfl tableWrites []
      (by simpa using regs_split) tableWrites_no_sentinel fuel
      (by rw [tableWrites_length]; omega)
      (startWrite { (Panel_Device_init use_reset p).2 with
        _width := (Panel_Device_init use_reset p).2._cfg.panel_width,
        _height := (Panel_Device_init use_reset p).2._cfg.panel_height })
    simp only [List.length_nil] at hrun
    simp only [init, hb, Bool.not_true, Bool.false_eq_true, if_false, hrun]
    simp [startWrite, emit]
  · set_option maxRecDepth 100000 in decide
  · set_option maxRecDepth 100000 in decide
  · intro hmem
    obtain ⟨r, hr, hreg⟩ := List.mem_map.1 hmem
    have hc : r.cmd = 0xFFFF := by
      simp only [registerWrite, Call.writeRegister.injEq] at hreg
      exact hreg.1
    exact tableWrites_no_sentinel r hr hc

/-- C3, at a concrete input: a base class `init` that succeeds, on a 10 x 10
panel, with room for the 381 table entries. -/
theorem init_sends_register_table_witness :
    ((baseInitOk true panel10).1 = false →
      init 381 baseInitOk true panel10 = .ok (false, (baseInitOk true panel10).2)) ∧
    ((baseInitOk true panel10).1 = true →
      init 381 baseInitOk true panel10 =
        .ok (true,
          { (baseInitOk true panel10).2 with
            _width := (baseInitOk true panel10).2._cfg.panel_width,
            _height := (baseInitOk true panel10).2._cfg.panel_height,
            log := (baseInitOk true panel10).2.log ++
              .startWrite :: tableWrites.map registerWrite })) ∧
    regs = tableWrites ++ [⟨0xFFFF, 0xFF⟩] ∧
    regs.length = 381 ∧
    tableWrites.length = 380 ∧
    tableWrites.head? = some ⟨0xF000, 0x55⟩ ∧
    tableWrites.getLast? = some ⟨0x3500, 0x00⟩ ∧
    (∀ r ∈ tableWrites, r.cmd ≠ 0xFFFF) ∧
    Call.writeRegister 0xFFFF 0xFF ∉ tableWrites.map registerWrite :=
  init_sends_register_table baseInitOk true panel10 381
    (by rw [regs_split, List.length_append, tableWrites_length]; decide)

/-- C4. Each pixel writing primitive appends its payload to the log inside the
QSPI framing and nothing else: `writeBlock` one `writeDataRepeat(rawcolor,
_write_bits, len)`; `write_bytes` one `writeBytes(data, len)`; `writePixels` one
`writeBytes` of `(len * _write_bits) >> 3` bytes when `no_convert` is set and
one bus `writePixels(param, len)` otherwise; `drawPixelPreclipped`, after its
`setWindow`, one `writeData(rawcolor, _write_bits)`; `writeFillRectPreclipped`,
after its `setWindow`, one `writeDataRepeat(rawcolor, _write_bits, w * h)`.
Products are those of the 32 bit unsigned arithmetic of the code. -/
theorem pixel_writes_are_qspi_framed (env : Env) (p : Panel) (rawcolor len x y w h : Nat)
    (data : DataPtr) (use_dma : Bool) (param : pixelcopy_t) :
    writeBlock rawcolor len p =
      { p with log := p.log ++ qspiFramed [.writeDataRepeat rawcolor p._write_bits len] } ∧
    write_bytes data len use_dma p =
      { p with log := p.log ++ qspiFramed [.writeBytes data len true use_dma] } ∧
    (writePixels env param len use_dma p).2.log =
      p.log ++ qspiFramed
        [if param.no_convert then
           .writeBytes (.src 0) (((len * p._write_bits) % 2 ^ 32) >>> 3) true use_dma
         else .writePixels len] ∧
    (drawPixelPreclipped x y rawcolor p).log =
      (setWindow x y x y p).log ++ qspiFramed [.writeData rawcolor p._write_bits] ∧
    (writeFillRectPreclipped x y w h rawcolor p).log =
      (setWindow x y (usub (uadd w x) 1) (usub (uadd y h) 1) p).log ++
        qspiFramed [.writeDataRepeat rawcolor p._write_bits ((w * h) % 2 ^ 32)] := by
  refine ⟨?_, ?_, ?_, ?_, ?_⟩
  · simp [writeBlock, start_qspi, end_qspi, qspiFramed, cs_control, bus_writeCommand, bus_wait,
      emit]
  · simp [write_bytes, start_qspi, end_qspi, qspiFramed, cs_control, bus_writeCommand, bus_wait,
      emit]
  · cases hnc : param.no_convert <;>
      simp [writePixels, hnc, start_qspi, end_qspi, qspiFramed, cs_control, bus_writeCommand,
        bus_wait, emit, umul, UINT32_MOD] <;>
      split_ifs <;> simp
  · rw [setWindow_log]
    simp only [drawPixelPreclipped, setWindow_log]
    split_ifs <;>
      simp [start_qspi, end_qspi, qspiFramed, cs_control, bus_writeCommand, bus_wait, emit]
  · rw [setWindow_log]
    simp [writeFillRectPreclipped, setWindow_log, start_qspi, end_qspi, qspiFramed, cs_control,
      bus_writeCommand, bus_wait, emit, umul, UINT32_MOD]

/-- C5, the failing input evaluated: a 2 x 2 image taken from rows 4 pixels
apart, without conversion and with DMA.  After `setWindow` the rows go to the
bus through `addDMAQueue` and `execDMAQueue` alone: no QSPI header before them
and no trailer after them. -/
theorem writeImage_dma_queue_unframed :
    (writeImage 2 idleEnv 0 0 2 2 (param16 true) true panel10).map
        (fun r => emitted (setWindow 0 0 1 1 panel10) r.2) =
      some [.addDMAQueue (.src 0) 4, .addDMAQueue (.src 8) 4, .execDMAQueue] ∧
    (writeImage 2 idleEnv 0 0 2 2 (param16 true) true panel10).map
        (fun r => (emitted panel10 r.2).any isQspiMarker) = some false ∧
    (writeImage 2 idleEnv 0 0 2 2 (param16 true) false panel10).map
        (fun r => emitted (setWindow 0 0 1 1 panel10) r.2) =
      some (qspiFramed [.writeBytes (.src 0) 4 true false] ++
        qspiFramed [.writeBytes (.src 8) 4 true false]) := by
  decide

theorem and_seven (n : Nat) : n &&& 7 = n % 8 := by
  have := Nat.and_pow_two_sub_one_eq_mod n 3
  simpa using this

theorem and_three (n : Nat) : n &&& 3 = n % 4 := by
  have := Nat.and_pow_two_sub_one_eq_mod n 2
  simpa using this

theorem and_one (n : Nat) : n &&& 1 = n % 2 := by
  simp

theorem and_four (n : Nat) : n &&& 4 = (n % 8) &&& 4 := by
  rw [← and_seven, Nat.land_assoc]
  rfl

theorem internal_rotation_small :
    ∀ a, a < 8 → ∀ b, b < 8 →
      ((a + b) % 4 ||| ((a &&& 4) ^^^ (b &&& 4))) = internalRotationSpec a b := by
  decide

theorem internal_rotation_bits (r off : Nat) :
    (((r &&& 7) + off) &&& 3 ||| (((r &&& 7) &&& 4) ^^^ (off &&& 4))) =
      internalRotationSpec r off := by
  have hsmall := internal_rotation_small (r % 8) (Nat.mod_lt _ (by norm_num))
    (off % 8) (Nat.mod_lt _ (by norm_num))
  have hspec : internalRotationSpec r off = internalRotationSpec (r % 8) (off % 8) := by
    unfold internalRotationSpec
    omega
  have hlow : (r % 8 + off) % 4 = (r % 8 + off % 8) % 4 := by omega
  rw [and_seven, and_three, and_four off, hlow, hspec, ← hsmall]

theorem internalRotationSpec_lt (r off : Nat) : internalRotationSpec r off < 8 := by
  unfold internalRotationSpec
  omega

theorem setRotation_eq (r : Nat) (p : Panel) :
    setRotation r p =
      { p with
        _rotation := r % 8,
        _internal_rotation := internalRotationSpec r p._cfg.offset_rotation,
        _width := if internalRotationSpec r p._cfg.offset_rotation % 2 = 1
                  then p._cfg.panel_height else p._cfg.panel_width,
        _height := if internalRotationSpec r p._cfg.offset_rotation % 2 = 1
                   then p._cfg.panel_width else p._cfg.panel_height,
        _xs := INT16_MAX, _xe := INT16_MAX, _ys := INT16_MAX, _ye := INT16_MAX } := by
  have hodd : ∀ n : Nat, (n % 2 = 1) ↔ ¬ n % 2 = 0 := by intro n; omega
  simp only [setRotation, internal_rotation_bits, and_one]
  rw [and_seven]
  simp only [ne_eq, decide_not, Bool.not_eq_true', decide_eq_false_iff_not, hodd,
    Bool.not_eq_eq_eq_not, Bool.not_true, ite_not]

theorem runTransactions_cons (op : TransactionCall) (ops : List TransactionCall) (p : Panel) :
    runTransactions (op :: ops) p = runTransactions ops (stepTransaction op p) := rfl

theorem emitted_of_log {p q : Panel} {l : List Call} (h : q.log = p.log ++ l) :
    emitted p q = l := by
  simp [emitted, h]

theorem openAfter_iff (l : List Call) :
    ∀ b : Bool, openAfter b l = true ↔
      (l = [] ∧ b = true) ∨ l.getLast? = some .beginTransaction := by
  induction l with
  | nil => intro b; simp [openAfter]
  | cons c rest ih =>
    intro b
    rw [openAfter, ih]
    cases rest with
    | nil => simp
    | cons d rest2 => simp [List.getLast?_cons_cons]

theorem transactions_invariant (ops : List TransactionCall) :
    ∀ p : Panel, ∃ l : List Call,
      (runTransactions ops p).log = p.log ++ l ∧
      alternatesFrom p._in_transaction (l.filter isTransactionCall) = true ∧
      (runTransactions ops p)._in_transaction =
        openAfter p._in_transaction (l.filter isTransactionCall) ∧
      (∀ c ∈ l, c = .beginTransaction ∨ c = .endTransaction ∨ c = .writeData 0 8) ∧
      (p._has_align_data = false → l.filter isTransactionCall = l) := by
  induction ops with
  | nil =>
    intro p
    exact ⟨[], by simp [runTransactions], by simp [alternatesFrom], by simp [runTransactions, openAfter],
      by simp, by simp⟩
  | cons op ops ih =>
    intro p
    rw [runTransactions_cons]
    obtain ⟨l, h1, h2, h3, h4, h5⟩ := ih (stepTransaction op p)
    cases op with
    | begin_ =>
      cases hf : p._in_transaction with
      | true =>
        have hstep : stepTransaction .begin_ p = p := by
          simp [stepTransaction, beginTransaction, hf]
        rw [hstep] at h1 h2 h3 h5 ⊢
        rw [hf] at h2 h3
        exact ⟨l, h1, h2, h3, h4, h5⟩
      | false =>
        have hstep : stepTransaction .begin_ p =
            { p with _in_transaction := true, log := p.log ++ [.beginTransaction] } := by
          simp [stepTransaction, beginTransaction, hf, emit]
        rw [hstep] at h1 h2 h3 h5 ⊢
        refine ⟨.beginTransaction :: l, by simpa using h1, ?_, ?_, ?_, ?_⟩
        · simpa [isTransactionCall, alternatesFrom] using h2
        · simpa [isTransactionCall, openAfter] using h3
        · intro c hc
          rcases List.mem_cons.1 hc with rfl | hc
          · exact Or.inl rfl
          · exact h4 c hc
        · intro ha
          have := h5 ha
          simp [isTransactionCall, this]
    | end_ =>
      cases hf : p._in_transaction with
      | false =>
        have hstep : stepTransaction .end_ p = p := by
          simp [stepTransaction, endTransaction, hf]
        rw [hstep] at h1 h2 h3 h5 ⊢
        rw [hf] at h2 h3
        exact ⟨l, h1, h2, h3, h4, h5⟩
      | true =>
        cases ha : p._has_align_data with
        | false =>
          have hstep : stepTransaction .end_ p =
              { p with _in_transaction := false, log := p.log ++ [.endTransaction] } := by
            simp [stepTransaction, endTransaction, hf, ha, emit]
          rw [hstep] at h1 h2 h3 h5 ⊢
          refine ⟨.endTransaction :: l, by simpa using h1, ?_, ?_, ?_, ?_⟩
          · simpa [isTransactionCall, alternatesFrom] using h2
          · simpa [isTransactionCall, openAfter] using h3
          · intro c hc
            rcases List.mem_cons.1 hc with rfl | hc
            · exact Or.inr (Or.inl rfl)
            · exact h4 c hc
          · intro _
            have := h5 ha
            simp [isTransactionCall, this]
        | true =>
          have hstep : stepTransaction .end_ p =
              { p with _in_transaction := false, _has_align_data := false,
                       log := p.log ++ [.writeData 0 8, .endTransaction] } := by
            simp [stepTransaction, endTransaction, hf, ha, emit]
          rw [hstep] at h1 h2 h3 h5 ⊢
          refine ⟨.writeData 0 8 :: .endTransaction :: l, by simpa using h1, ?_, ?_, ?_, ?_⟩
          · simpa [isTransactionCall, alternatesFrom] using h2
          · simpa [isTransactionCall, openAfter] using h3
          · intro c hc
            rcases List.mem_cons.1 hc with rfl | hc
            · exact Or.inr (Or.inr rfl)
            · rcases List.mem_cons.1 hc with rfl | hc
              · exact Or.inr (Or.inl rfl)
              · exact h4 c hc
          · intro hfalse
            simp at hfalse

theorem stepTransaction_frame (op : TransactionCall) (p : Panel) :
    (stepTransaction op p)._cfg = p._cfg ∧
    (stepTransaction op p)._width = p._width ∧
    (stepTransaction op p)._height = p._height ∧
    (stepTransaction op p)._xs = p._xs ∧ (stepTransaction op p)._xe = p._xe ∧
    (stepTransaction op p)._ys = p._ys ∧ (stepTransaction op p)._ye = p._ye ∧
    (stepTransaction op p)._rotation = p._rotation ∧
    (stepTransaction op p)._internal_rotation = p._internal_rotation ∧
    (stepTransaction op p)._write_depth = p._write_depth ∧
    (stepTransaction op p)._write_bits = p._write_bits := by
  cases op <;> simp only [stepTransaction, beginTransaction, endTransaction, emit] <;>
    split_ifs <;> simp

theorem transactions_frame (ops : List TransactionCall) :
    ∀ p : Panel,
      (runTransactions ops p)._cfg = p._cfg ∧
      (runTransactions ops p)._width = p._width ∧
      (runTransactions ops p)._height = p._height ∧
      (runTransactions ops p)._xs = p._xs ∧ (runTransactions ops p)._xe = p._xe ∧
      (runTransactions ops p)._ys = p._ys ∧ (runTransactions ops p)._ye = p._ye ∧
      (runTransactions ops p)._rotation = p._rotation ∧
      (runTransactions ops p)._internal_rotation = p._internal_rotation ∧
      (runTransactions ops p)._write_depth = p._write_depth ∧
      (runTransactions ops p)._write_bits = p._write_bits := by
  induction ops with
  | nil => intro p; simp [runTransactions]
  | cons op ops ih =>
    intro p
    rw [runTransactions_cons]
    obtain ⟨a1, a2, a3, a4, a5, a6, a7, a8, a9, a10, a11⟩ := ih (stepTransaction op p)
    obtain ⟨b1, b2, b3, b4, b5, b6, b7, b8, b9, b10, b11⟩ := stepTransaction_frame op p
    exact ⟨a1.trans b1, a2.trans b2, a3.trans b3, a4.trans b4, a5.trans b5, a6.trans b6,
      a7.trans b7, a8.trans b8, a9.trans b9, a10.trans b10, a11.trans b11⟩

theorem transactions_padding_invariant (ops : List TransactionCall) :
    ∀ p : Panel, ∃ l : List Call,
      (runTransactions ops p).log = p.log ++ l ∧
      paddedAlternatesFrom p._in_transaction l = true ∧
      l.count (.writeData 0 8) ≤ (if p._has_align_data = true then 1 else 0) ∧
      (runTransactions ops p)._has_align_data =
        (p._has_align_data && decide (l.count (.writeData 0 8) = 0)) := by
  induction ops with
  | nil =>
    intro p
    exact ⟨[], by simp [runTransactions], by simp [paddedAlternatesFrom], by simp,
      by simp [runTransactions]⟩
  | cons op ops ih =>
    intro p
    rw [runTransactions_cons]
    obtain ⟨l, h1, h2, h3, h4⟩ := ih (stepTransaction op p)
    cases op with
    | begin_ =>
      cases hf : p._in_transaction with
      | true =>
        have hstep : stepTransaction .begin_ p = p := by
          simp [stepTransaction, beginTransaction, hf]
        rw [hstep] at h1 h2 h3 h4 ⊢
        rw [hf] at h2
        exact ⟨l, h1, h2, h3, h4⟩
      | false =>
        have hstep : stepTransaction .begin_ p =
            { p with _in_transaction := true, log := p.log ++ [.beginTransaction] } := by
          simp [stepTransaction, beginTransaction, hf, emit]
        rw [hstep] at h1 h2 h3 h4 ⊢
        refine ⟨.beginTransaction :: l, by simpa using h1, ?_, ?_, ?_⟩
        · simpa [paddedAlternatesFrom] using h2
        · simpa [List.count_cons] using h3
        · simpa [List.count_cons] using h4
    | end_ =>
      cases hf : p._in_transaction with
      | false =>
        have hstep : stepTransaction .end_ p = p := by
          simp [stepTransaction, endTransaction, hf]
        rw [hstep] at h1 h2 h3 h4 ⊢
        rw [hf] at h2
        exact ⟨l, h1, h2, h3, h4⟩
      | true =>
        cases ha : p._has_align_data with
        | false =>
          have hstep : stepTransaction .end_ p =
              { p with _in_transaction := false, log := p.log ++ [.endTransaction] } := by
            simp [stepTransaction, endTransaction, hf, ha, emit]
          rw [hstep] at h1 h2 h3 h4 ⊢
          simp only [ha] at h1 h2 h3 h4 ⊢
          refine ⟨.endTransaction :: l, by simpa using h1, ?_, ?_, ?_⟩
          · simpa [paddedAlternatesFrom] using h2
          · simpa [List.count_cons] using h3
          · simpa [List.count_cons] using h4
        | true =>
          have hstep : stepTransaction .end_ p =
              { p with _in_transaction := false, _has_align_data := false,
                       log := p.log ++ [.writeData 0 8, .endTransaction] } := by
            simp [stepTransaction, endTransaction, hf, ha, emit]
          rw [hstep] at h1 h2 h3 h4 ⊢
          simp only [Bool.false_eq_true, if_false, Bool.false_and] at h3 h4
          refine ⟨.writeData 0 8 :: .endTransaction :: l, by simpa using h1, ?_, ?_, ?_⟩
          · simpa [paddedAlternatesFrom] using h2
          · have h0 : List.count (Call.writeData 0 8) l = 0 := by omega
            simp [List.count_cons, h0]
          · simpa [List.count_cons] using h4

/-- C6 as stated fails: from `_in_transaction = false` with an alignment byte
pending, `beginTransaction` then `endTransaction` forward three calls to the
bus, `beginTransaction`, `writeData(0, 8)`, `endTransaction`, which is not an
alternation of `beginTransaction` and `endTransaction`. -/
theorem transactions_padding_breaks_alternation :
    panelAligned._in_transaction = false ∧
    emitted panelAligned (runTransactions [.begin_, .end_] panelAligned) =
      [.beginTransaction, .writeData 0 8, .endTransaction] ∧
    alternatesFrom false
      (emitted panelAligned (runTransactions [.begin_, .end_] panelAligned)) = false := by
  decide

/-- C6, amended. From `_in_transaction = false`, after any finite sequence of
`beginTransaction` and `endTransaction` calls: the bus `beginTransaction` and
`endTransaction` calls forwarded alternate strictly, beginning with
`beginTransaction`; `_in_transaction` is true exactly when the last of them is
`beginTransaction`; any other call forwarded is the padding `writeData(0, 8)` of
`endTransaction`, which comes immediately before a bus `endTransaction`, at most
once, and not at all when `_has_align_data` is false at the start;
`_has_align_data` is cleared exactly when the padding was sent and no other
field changes.  Call by call: `beginTransaction` outside a transaction sets the
flag and forwards `beginTransaction`; `endTransaction` inside one clears the
flag and forwards `endTransaction`, preceded by the padding when
`_has_align_data` is set, which it clears; a `beginTransaction` inside a
transaction and an `endTransaction` outside one leave the panel, log included,
as it was. -/
theorem transactions_alternate (ops : List TransactionCall) (p : Panel)
    (h : p._in_transaction = false) :
    alternatesFrom false
      ((emitted p (runTransactions ops p)).filter isTransactionCall) = true ∧
    ((runTransactions ops p)._in_transaction = true ↔
      ((emitted p (runTransactions ops p)).filter isTransactionCall).getLast? =
        some .beginTransaction) ∧
    (∀ c ∈ emitted p (runTransactions ops p),
      c = .beginTransaction ∨ c = .endTransaction ∨ c = .writeData 0 8) ∧
    (p._has_align_data = false →
      alternatesFrom false (emitted p (runTransactions ops p)) = true) ∧
    (∀ q : Panel, q._in_transaction = true → beginTransaction q = q) ∧
    (∀ q : Panel, q._in_transaction = false → endTransaction q = q) ∧
    paddedAlternatesFrom false (emitted p (runTransactions ops p)) = true ∧
    (emitted p (runTransactions ops p)).count (.writeData 0 8) ≤
      (if p._has_align_data = true then 1 else 0) ∧
    (runTransactions ops p)._has_align_data =
      (p._has_align_data &&
        decide ((emitted p (runTransactions ops p)).count (.writeData 0 8) = 0)) ∧
    ((runTransactions ops p)._cfg = p._cfg ∧
      (runTransactions ops p)._width = p._width ∧
      (runTransactions ops p)._height = p._height ∧
      (runTransactions ops p)._xs = p._xs ∧
      (runTransactions ops p)._xe = p._xe ∧
      (runTransactions ops p)._ys = p._ys ∧
      (runTransactions ops p)._ye = p._ye ∧
      (runTransactions ops p)._rotation = p._rotation ∧
      (runTransactions ops p)._internal_rotation = p._internal_rotation ∧
      (runTransactions ops p)._write_depth = p._write_depth ∧
      (runTransactions ops p)._write_bits = p._write_bits) ∧
    (∀ q : Panel, q._in_transaction = false →
      beginTransaction q =
        { q with _in_transaction := true, log := q.log ++ [.beginTransaction] }) ∧
    (∀ q : Panel, q._in_transaction = true → q._has_align_data = false →
      endTransaction q =
        { q with _in_transaction := false, log := q.log ++ [.endTransaction] }) ∧
    (∀ q : Panel, q._in_transaction = true → q._has_align_data = true →
      endTransaction q =
        { q with _in_transaction := false, _has_align_data := false,
                 log := q.log ++ [.writeData 0 8, .endTransaction] }) := by
  obtain ⟨l, h1, h2, h3, h4, h5⟩ := transactions_invariant ops p
  obtain ⟨l', g1, g2, g3, g4⟩ := transactions_padding_invariant ops p
  have hl : l' = l := by
    have := g1.symm.trans h1
    exact List.append_cancel_left this
  subst hl
  rw [emitted_of_log h1]
  rw [h] at h2 h3 g2
  refine ⟨h2, ?_, h4, ?_, ?_, ?_, g2, g3, g4, transactions_frame ops p, ?_, ?_, ?_⟩
  · rw [h3, openAfter_iff]
    simp
  · intro ha
    rw [h5 ha] at h2
    exact h2
  · intro q hq
    simp [beginTransaction, hq]
  · intro q hq
    simp [endTransaction, hq]
  · intro q hq
    simp [beginTransaction, hq, emit]
  · intro q hq ha
    simp [endTransaction, hq, ha, emit]
  · intro q hq ha
    simp [endTransaction, hq, ha, emit]

/-- C6, amended, at a concrete input: the calls begin, begin, end, end, begin
on a 10 x 10 panel outside a transaction with an alignment byte pending, which
forward `beginTransaction`, `writeData(0, 8)`, `endTransaction`,
`beginTransaction`. -/
theorem transactions_alternate_witness :
    alternatesFrom false
      ((emitted panelAligned (runTransactions sampleCalls panelAligned)).filter isTransactionCall) = true ∧
    ((runTransactions sampleCalls panelAligned)._in_transaction = true ↔
      ((emitted panelAligned (runTransactions sampleCalls panelAligned)).filter isTransactionCall).getLast? =
        some .beginTransaction) ∧
    (∀ c ∈ emitted panelAligned (runTransactions sampleCalls panelAligned),
      c = .beginTransaction ∨ c = .endTransaction ∨ c = .writeData 0 8) ∧
    (panelAligned._has_align_data = false →
      alternatesFrom false (emitted panelAligned (runTransactions sampleCalls panelAligned)) = true) ∧
    (∀ q : Panel, q._in_transaction = true → beginTransaction q = q) ∧
    (∀ q : Panel, q._in_transaction = false → endTransaction q = q) ∧
    paddedAlternatesFrom false (emitted panelAligned (runTransactions sampleCalls panelAligned)) = true ∧
    (emitted panelAligned (runTransactions sampleCalls panelAligned)).count (.writeData 0 8) ≤
      (if panelAligned._has_align_data = true then 1 else 0) ∧
    (runTransactions sampleCalls panelAligned)._has_align_data =
      (panelAligned._has_align_data &&
        decide ((emitted panelAligned (runTransactions sampleCalls panelAligned)).count (.writeData 0 8) = 0)) ∧
    ((runTransactions sampleCalls panelAligned)._cfg = panelAligned._cfg ∧
      (runTransactions sampleCalls panelAligned)._width = panelAligned._width ∧
      (runTransactions sampleCalls panelAligned)._height = panelAligned._height ∧
      (runTransactions sampleCalls panelAligned)._xs = panelAligned._xs ∧
      (runTransactions sampleCalls panelAligned)._xe = panelAligned._xe ∧
      (runTransactions sampleCalls panelAligned)._ys = panelAligned._ys ∧
      (runTransactions sampleCalls panelAligned)._ye = panelAligned._ye ∧
      (runTransactions sampleCalls panelAligned)._rotation = panelAligned._rotation ∧
      (runTransactions sampleCalls panelAligned)._internal_rotation = panelAligned._internal_rotation ∧
      (runTransactions sampleCalls panelAligned)._write_depth = panelAligned._write_depth ∧
      (runTransactions sampleCalls panelAligned)._write_bits = panelAligned._write_bits) ∧
    (∀ q : Panel, q._in_transaction = false →
      beginTransaction q =
        { q with _in_transaction := true, log := q.log ++ [.beginTransaction] }) ∧
    (∀ q : Panel, q._in_transaction = true → q._has_align_data = false →
      endTransaction q =
        { q with _in_transaction := false, log := q.log ++ [.endTransaction] }) ∧
    (∀ q : Panel, q._in_transaction = true → q._has_align_data = true →
      endTransaction q =
        { q with _in_transaction := false, _has_align_data := false,
                 log := q.log ++ [.writeData 0 8, .endTransaction] }) :=
  transactions_alternate sampleCalls panelAligned (by decide)

/-- C7. The read back operations are stubs: `readCommand` and `readData` return 0
and `displayBusy` returns `false`, whatever the arguments; `readRect` leaves the
destination buffer as it was; and none of the four appends to the log or
changes a field of the panel. -/
theorem readback_operations_are_stubs (cmd index len x y w h : Nat) (dst : List Nat)
    (param : pixelcopy_t) (p : Panel) :
    readCommand cmd index len p = (0, p) ∧
    readData index len p = (0, p) ∧
    displayBusy p = (false, p) ∧
    readRect x y w h dst param p = (dst, param, p) :=
  ⟨rfl, rfl, rfl, rfl⟩

/-- C8. For `rgb565_2Byte`, `rgb666_3Byte` and `rgb888_3Byte`, `setColorDepth`
stores the depth in `_write_depth`, returns it and, between the base class
`startWrite` and `endWrite`, sends CS low, `02 00 3A 00`, the format byte `0x55`,
`0x66` or `0x77`, wait, CS high.  For any other depth it returns the stored
`_write_depth` and leaves the panel as it was, log included. -/
theorem setColorDepth_supported_formats (p : Panel) :
    setColorDepth .rgb565_2Byte p =
      (.rgb565_2Byte,
        { p with _write_depth := .rgb565_2Byte,
                 log := p.log ++
                  [.startWrite, .cs_control false,
                   .writeCommand 0x02 8, .writeCommand 0x00 8, .writeCommand 0x3A 8,
                   .writeCommand 0x00 8, .writeCommand 0x55 8, .wait, .cs_control true,
                   .endWrite] }) ∧
    setColorDepth .rgb666_3Byte p =
      (.rgb666_3Byte,
        { p with _write_depth := .rgb666_3Byte,
                 log := p.log ++
                  [.startWrite, .cs_control false,
                   .writeCommand 0x02 8, .writeCommand 0x00 8, .writeCommand 0x3A 8,
                   .writeCommand 0x00 8, .writeCommand 0x66 8, .wait, .cs_control true,
                   .endWrite] }) ∧
    setColorDepth .rgb888_3Byte p =
      (.rgb888_3Byte,
        { p with _write_depth := .rgb888_3Byte,
                 log := p.log ++
                  [.startWrite, .cs_control false,
                   .writeCommand 0x02 8, .writeCommand 0x00 8, .writeCommand 0x3A 8,
                   .writeCommand 0x00 8, .writeCommand 0x77 8, .wait, .cs_control true,
                   .endWrite] }) ∧
    ∀ v : Nat, setColorDepth (.other v) p = (p._write_depth, p) := by
  refine ⟨?_, ?_, ?_, ?_⟩ <;>
    simp [setColorDepth, startWrite, endWrite, write_cmd, cs_control, bus_writeCommand,
      bus_wait, emit]

/-- C9. `setBrightness(b)`, for `b` in `0..255`, sends between the base class
`startWrite` and `endWrite`: CS low, `02 00 51 00`, `b`, wait, CS high.
`setInvert` sends CS low, `02 00 21 00` (on) or `02 00 20 00` (off), wait, CS
high.  `setSleep` sends CS low, `02 00 10 00` (sleep), wait, CS high, or CS low,
`02 00 11 00` (wake), the 150 ms delay, wait, CS high.  No other call is made
and no field changes. -/
theorem brightness_invert_sleep_commands (p : Panel) (b : Nat) (hb : b ≤ 255) :
    setBrightness b p =
      { p with log := p.log ++
        [.startWrite, .cs_control false,
         .writeCommand 0x02 8, .writeCommand 0x00 8, .writeCommand 0x51 8, .writeCommand 0x00 8,
         .writeCommand b 8, .wait, .cs_control true, .endWrite] } ∧
    setInvert true p =
      { p with log := p.log ++
        [.cs_control false,
         .writeCommand 0x02 8, .writeCommand 0x00 8, .writeCommand 0x21 8, .writeCommand 0x00 8,
         .wait, .cs_control true] } ∧
    setInvert false p =
      { p with log := p.log ++
        [.cs_control false,
         .writeCommand 0x02 8, .writeCommand 0x00 8, .writeCommand 0x20 8, .writeCommand 0x00 8,
         .wait, .cs_control true] } ∧
    setSleep true p =
      { p with log := p.log ++
        [.cs_control false,
         .writeCommand 0x02 8, .writeCommand 0x00 8, .writeCommand 0x10 8, .writeCommand 0x00 8,
         .wait, .cs_control true] } ∧
    setSleep false p =
      { p with log := p.log ++
        [.cs_control false,
         .writeCommand 0x02 8, .writeCommand 0x00 8, .writeCommand 0x11 8, .writeCommand 0x00 8,
         .delay 150, .wait, .cs_control true] } := by
  have hmod : b % 256 = b := Nat.mod_eq_of_lt (by omega)
  refine ⟨?_, ?_, ?_, ?_, ?_⟩ <;>
    simp [setBrightness, setInvert, setSleep, delay, startWrite, endWrite, write_cmd, cs_control,
      bus_writeCommand, bus_wait, emit, hmod]

/-- C9, at a concrete input: brightness 200 on a 10 x 10 panel. -/
theorem brightness_invert_sleep_commands_witness :
    setBrightness 200 panel10 =
      { panel10 with log := panel10.log ++
        [.startWrite, .cs_control false,
         .writeCommand 0x02 8, .writeCommand 0x00 8, .writeCommand 0x51 8, .writeCommand 0x00 8,
         .writeCommand 200 8, .wait, .cs_control true, .endWrite] } ∧
    setInvert true panel10 =
      { panel10 with log := panel10.log ++
        [.cs_control false,
         .writeCommand 0x02 8, .writeCommand 0x00 8, .writeCommand 0x21 8, .writeCommand 0x00 8,
         .wait, .cs_control true] } ∧
    setInvert false panel10 =
      { panel10 with log := panel10.log ++
        [.cs_control false,
         .writeCommand 0x02 8, .writeCommand 0x00 8, .writeCommand 0x20 8, .writeCommand 0x00 8,
         .wait, .cs_control true] } ∧
    setSleep true panel10 =
      { panel10 with log := panel10.log ++
        [.cs_control false,
         .writeCommand 0x02 8, .writeCommand 0x00 8, .writeCommand 0x10 8, .writeCommand 0x00 8,
         .wait, .cs_control true] } ∧
    setSleep false panel10 =
      { panel10 with log := panel10.log ++
        [.cs_control false,
         .writeCommand 0x02 8, .writeCommand 0x00 8, .writeCommand 0x11 8, .writeCommand 0x00 8,
         .delay 150, .wait, .cs_control true] } :=
  brightness_invert_sleep_commands panel10 200 (by decide)

/-- C10. `setRotation(r)` stores `_rotation = r mod 8` and `_internal_rotation =
((r mod 8 + offset_rotation) mod 4) + 4 * (bit 2 of r XOR bit 2 of
offset_rotation)`, a value below 8; sets `(_width, _height)` to `(panel_height,
panel_width)` when `_internal_rotation` is odd and to `(panel_width,
panel_height)` otherwise; resets `_xs`, `_xe`, `_ys`, `_ye` to `INT16_MAX`;
leaves the log and every other field alone; and `setRotation(r + 8)` leaves the
same state as `setRotation(r)`. -/
theorem setRotation_updates_fields_only (r : Nat) (p : Panel) :
    (setRotation r p)._rotation = r % 8 ∧
    (setRotation r p)._internal_rotation =
      (r % 8 + p._cfg.offset_rotation) % 4 +
        4 * ((r / 4 % 2 + p._cfg.offset_rotation / 4 % 2) % 2) ∧
    (setRotation r p)._internal_rotation < 8 ∧
    ((setRotation r p)._width, (setRotation r p)._height) =
      (if (setRotation r p)._internal_rotation % 2 = 1
       then (p._cfg.panel_height, p._cfg.panel_width)
       else (p._cfg.panel_width, p._cfg.panel_height)) ∧
    (setRotation r p)._xs = INT16_MAX ∧ (setRotation r p)._xe = INT16_MAX ∧
    (setRotation r p)._ys = INT16_MAX ∧ (setRotation r p)._ye = INT16_MAX ∧
    (setRotation r p).log = p.log ∧
    (setRotation r p)._cfg = p._cfg ∧
    (setRotation r p)._write_depth = p._write_depth ∧
    (setRotation r p)._write_bits = p._write_bits ∧
    (setRotation r p)._in_transaction = p._in_transaction ∧
    (setRotation r p)._has_align_data = p._has_align_data ∧
    setRotation (r + 8) p = setRotation r p := by
  have hshift : internalRotationSpec (r + 8) p._cfg.offset_rotation =
      internalRotationSpec r p._cfg.offset_rotation := by
    unfold internalRotationSpec
    omega
  have hlt := internalRotationSpec_lt r p._cfg.offset_rotation
  have hsame : setRotation (r + 8) p = setRotation r p := by
    rw [setRotation_eq, setRotation_eq, hshift, Nat.add_mod_right]
  have hsize : ((setRotation r p)._width, (setRotation r p)._height) =
      (if (setRotation r p)._internal_rotation % 2 = 1
       then (p._cfg.panel_height, p._cfg.panel_width)
       else (p._cfg.panel_width, p._cfg.panel_height)) := by
    rw [setRotation_eq]
    dsimp only
    split_ifs <;> rfl
  refine ⟨?_, ?_, ?_, hsize, ?_, ?_, ?_, ?_, ?_, ?_, ?_, ?_, ?_, ?_, hsame⟩
  · rw [setRotation_eq]
  · rw [setRotation_eq]; rfl
  · rw [setRotation_eq]; exact hlt
  all_goals rw [setRotation_eq]

theorem pixelLengths_append (l1 l2 : List Call) :
    pixelLengths (l1 ++ l2) = pixelLengths l1 ++ pixelLengths l2 := by
  induction l1 with
  | nil => rfl
  | cons c rest ih => cases c <;> simp [pixelLengths, ih]

theorem pixelLengths_framedRuns (l : List Nat) : pixelLengths (framedRuns l) = l := by
  induction l with
  | nil => rfl
  | cons n rest ih =>
    rw [framedRuns, pixelLengths_append, ih]
    simp [qspiFramed, pixelLengths]

theorem framedRuns_append (l1 l2 : List Nat) :
    framedRuns (l1 ++ l2) = framedRuns l1 ++ framedRuns l2 := by
  induction l1 with
  | nil => rfl
  | cons n rest ih => simp [framedRuns, ih]

theorem pixelLengths_setWindow (xs ys xe ye : Nat) (p : Panel) :
    pixelLengths (emitted p (setWindow xs ys xe ye p)) = [] := by
  rw [setWindow_log, emitted_with_log]
  simp [pixelLengths]

theorem umul_of_lt {a b : Nat} (h : a * b < 2 ^ 32) : umul a b = a * b := by
  unfold umul UINT32_MOD
  exact Nat.mod_eq_of_lt h

theorem writePixels_convert (env : Env)
    (henv : ∀ q n, (env.bus_writePixels q n).no_convert = q.no_convert)
    (param : pixelcopy_t) (hnc : param.no_convert = false) (len : Nat) (use_dma : Bool)
    (p : Panel) :
    (writePixels env param len use_dma p).2.log = p.log ++ qspiFramed [.writePixels len] ∧
    (writePixels env param len use_dma p).1.no_convert = false := by
  constructor
  · simp [writePixels, hnc, start_qspi, end_qspi, qspiFramed, cs_control, bus_writeCommand,
      bus_wait, emit]
    split_ifs <;> simp
  · simp [writePixels, hnc, henv]

theorem chunk_loop_run (env : Env)
    (henv : ∀ q n, (env.bus_writePixels q n).no_convert = q.no_convert)
    (src_x : Int) (w h_step : Nat) (use_dma : Bool) (hstep : 1 ≤ h_step) :
    ∀ (k fuel : Nat) (param : pixelcopy_t) (p : Panel),
      (k + 1) * h_step < 2 ^ 32 → k < fuel → param.no_convert = false →
      ∃ r, writeImage_chunk_loop env src_x w h_step use_dma fuel ((k + 1) * h_step) param p =
          some r ∧
        r.2.log = p.log ++ framedRuns (List.replicate (k + 1) (umul w h_step)) := by
  intro k
  induction k with
  | zero =>
    intro fuel param p hlt hf hnc
    obtain ⟨f, rfl⟩ : ∃ f, fuel = f + 1 := ⟨fuel - 1, by omega⟩
    have hsub : usub ((0 + 1) * h_step) h_step = 0 := by
      rw [usub_of_le (by omega) hlt]; omega
    have hwp := writePixels_convert env henv { param with src_x := src_x } hnc
      (umul w h_step) use_dma p
    rw [writeImage_chunk_loop]
    simp only [hsub, ne_eq, not_true_eq_false, if_false]
    exact ⟨_, rfl, by simpa [framedRuns] using hwp.1⟩
  | succ k ih =>
    intro fuel param p hlt hf hnc
    obtain ⟨f, rfl⟩ : ∃ f, fuel = f + 1 := ⟨fuel - 1, by omega⟩
    have hexp : (k + 1 + 1) * h_step = (k + 1) * h_step + h_step := Nat.succ_mul _ _
    have hsub : usub ((k + 1 + 1) * h_step) h_step = (k + 1) * h_step := by
      rw [usub_of_le (by omega) hlt]; omega
    have hne : (k + 1) * h_step ≠ 0 := by
      have : 0 < (k + 1) * h_step := Nat.mul_pos (by omega) (by omega)
      omega
    have hwp := writePixels_convert env henv { param with src_x := src_x } hnc
      (umul w h_step) use_dma p
    obtain ⟨r, hr, hlog⟩ := ih f
      { (writePixels env { param with src_x := src_x } (umul w h_step) use_dma p).1 with
        src_y := (writePixels env { param with src_x := src_x } (umul w h_step) use_dma p).1.src_y
          + h_step }
      (writePixels env { param with src_x := src_x } (umul w h_step) use_dma p).2
      (by omega) (by omega) hwp.2
    rw [writeImage_chunk_loop]
    simp only [hsub, ne_eq, hne, not_false_eq_true, if_true]
    refine ⟨r, hr, ?_⟩
    rw [hlog, hwp.1]
    simp [List.replicate_succ, framedRuns]

theorem nogapOf_of_one (w : Nat) (param : pixelcopy_t) : nogapOf w 1 param = true := by
  simp [nogapOf]

theorem writeImage_convert_log (env : Env)
    (henv : ∀ q n, (env.bus_writePixels q n).no_convert = q.no_convert)
    (hbusy : env.busy = false) (param : pixelcopy_t) (htr : param.transp = NON_TRANSP)
    (hnc : param.no_convert = false) (x y w h fuel : Nat) (use_dma : Bool) (p : Panel)
    (hw1 : 1 ≤ w) (hw2 : w ≤ 32767) (hh : 1 ≤ h) (hwh : w * h < 2 ^ 32) (hfuel : h ≤ fuel) :
    ∃ r, writeImage fuel env x y w h param use_dma p = some r ∧
      r.2.log = (setWindow x y (usub (uadd x w) 1) (usub (uadd y h) 1) p).log ++
        framedRuns (chunkLengths w h (nogapOf w h param)) := by
  have hh32 : h < 2 ^ 32 := lt_of_le_of_lt (Nat.le_mul_of_pos_left h (by omega)) hwh
  have hwhu : umul w h = w * h := umul_of_lt hwh
  have hng : (decide (h = 1) ||
      (decide (param.src_y32_add = 0) &&
        decide ((param.src_bitwidth <<< FP_SCALE) % UINT32_MOD = umul w param.src_x32_add))) =
      nogapOf w h param := rfl
  simp only [writeImage, htr, hnc, hbusy, if_true, Bool.not_false, Bool.false_eq_true, if_false,
    hng, hwhu, chunkLengths]
  have hs1 : 1 ≤ (if nogapOf w h param = true then WRITEPIXELS_MAXLEN / w else 1) := by
    split_ifs
    · exact (Nat.le_div_iff_mul_le (by omega)).2 (by simpa [WRITEPIXELS_MAXLEN] using hw2)
    · exact le_refl 1
  have hs2 : w * (if nogapOf w h param = true then WRITEPIXELS_MAXLEN / w else 1) ≤ 32767 := by
    split_ifs
    · exact Nat.mul_div_le 32767 w
    · simpa using hw2
  generalize (if nogapOf w h param = true then WRITEPIXELS_MAXLEN / w else 1) = s at hs1 hs2 ⊢
  have hlen : (if s > 1 then usub h 1 % s + 1 else 1) = (h - 1) % s + 1 := by
    rw [usub_of_le hh hh32]
    split_ifs with h1
    · rfl
    · have h2 : s = 1 := by omega
      subst h2
      rw [Nat.mod_one]
  have hdm := Nat.div_add_mod (h - 1) s
  have hmodlt : (h - 1) % s < s := Nat.mod_lt _ (by omega)
  have hdle := Nat.div_le_self (h - 1) s
  simp only [hlen]
  generalize (h - 1) / s = q at hdm hdle ⊢
  generalize (h - 1) % s = m at hdm hmodlt ⊢
  have hsubl : usub h (m + 1) = s * q := by
    rw [usub_of_le (by omega) hh32]
    omega
  have hmul1 : umul w (m + 1) = w * (m + 1) := by
    apply umul_of_lt
    have : w * (m + 1) ≤ w * s := Nat.mul_le_mul_left w (by omega)
    omega
  have hmul2 : umul w s = w * s := umul_of_lt (by omega)
  simp only [hsubl, hmul1]
  have hwp1 := writePixels_convert env henv param hnc (w * h) use_dma
    (setWindow x y (usub (uadd x w) 1) (usub (uadd y h) 1) p)
  have hwp := writePixels_convert env henv param hnc (w * (m + 1)) use_dma
    (setWindow x y (usub (uadd x w) 1) (usub (uadd y h) 1) p)
  generalize writePixels env param (w * (m + 1)) use_dma
    (setWindow x y (usub (uadd x w) 1) (usub (uadd y h) 1) p) = wp at hwp ⊢
  split_ifs with hc hz
  · exact ⟨_, rfl, by rw [hwp1.1]; simp [framedRuns]⟩
  · cases q with
    | zero => simp at hz
    | succ k =>
      rw [Nat.mul_comm s (k + 1)] at hdm ⊢
      obtain ⟨r, hr, hlog⟩ := chunk_loop_run env henv param.src_x w s use_dma hs1 k fuel
        { wp.1 with src_y := wp.1.src_y + ((m + 1 : Nat) : Int) } wp.2
        (by omega) (by omega) hwp.2
      refine ⟨r, hr, ?_⟩
      rw [hlog, hwp.1, hmul2]
      simp [framedRuns]
  · cases q with
    | zero =>
      refine ⟨wp, rfl, ?_⟩
      rw [hwp.1]
      simp [framedRuns]
    | succ k =>
      exfalso
      apply hz
      exact Nat.ne_of_gt (Nat.mul_pos (by omega) (by omega))

theorem nogapOf_iff (w h : Nat) (param : pixelcopy_t) :
    nogapOf w h param = true ↔
      (h = 1 ∨ (param.src_y32_add = 0 ∧
        (param.src_bitwidth <<< FP_SCALE) % UINT32_MOD = umul w param.src_x32_add)) := by
  simp [nogapOf]

theorem chunkLengths_spec (w h : Nat) (nogap : Bool) (hw1 : 1 ≤ w) (hw2 : w ≤ 32767)
    (hh : 1 ≤ h) (hone : h = 1 → nogap = true) :
    (∀ n ∈ chunkLengths w h nogap, 0 < n ∧ w ∣ n ∧ n ≤ WRITEPIXELS_MAXLEN) ∧
    (chunkLengths w h nogap).sum = w * h ∧
    (chunkLengths w h nogap = [w * h] ↔ (nogap = true ∧ w * h ≤ WRITEPIXELS_MAXLEN)) ∧
    ((chunkLengths w h nogap).length = 1 ↔ (nogap = true ∧ w * h ≤ WRITEPIXELS_MAXLEN)) := by
  have hs1 : 1 ≤ (if nogap = true then WRITEPIXELS_MAXLEN / w else 1) := by
    split_ifs
    · exact (Nat.le_div_iff_mul_le (by omega)).2 (by simpa [WRITEPIXELS_MAXLEN] using hw2)
    · exact le_refl 1
  have hs2 : w * (if nogap = true then WRITEPIXELS_MAXLEN / w else 1) ≤ 32767 := by
    split_ifs
    · exact Nat.mul_div_le 32767 w
    · simpa using hw2
  have hsn : nogap = false → (if nogap = true then WRITEPIXELS_MAXLEN / w else 1) = 1 := by
    intro hn; simp [hn]
  unfold chunkLengths
  simp only [Bool.and_eq_true, decide_eq_true_eq]
  by_cases hc : nogap = true ∧ w * h ≤ WRITEPIXELS_MAXLEN
  · rw [if_pos hc]
    refine ⟨?_, by simp, by simp [hc], by simp [hc]⟩
    intro n hn
    rw [List.mem_singleton] at hn
    subst hn
    exact ⟨Nat.mul_pos (by omega) (by omega), Dvd.intro _ rfl, hc.2⟩
  · rw [if_neg hc]
    generalize (if nogap = true then WRITEPIXELS_MAXLEN / w else 1) = s at hs1 hs2 hsn ⊢
    have hdm := Nat.div_add_mod (h - 1) s
    have hmodlt : (h - 1) % s < s := Nat.mod_lt _ (by omega)
    generalize (h - 1) / s = q at hdm ⊢
    generalize (h - 1) % s = m at hdm hmodlt ⊢
    have hfirst : w * (m + 1) ≤ w * s := Nat.mul_le_mul_left w (by omega)
    have hq : 1 ≤ q := by
      by_contra hq0
      have hq0' : q = 0 := by omega
      subst hq0'
      have hhs : h ≤ s := by omega
      have hwhs : w * h ≤ w * s := Nat.mul_le_mul_left w hhs
      cases hn : nogap with
      | true => exact hc ⟨hn, by simp only [WRITEPIXELS_MAXLEN]; omega⟩
      | false =>
        have := hsn hn
        have h1 : h = 1 := by omega
        have := hone h1
        simp [hn] at this
    refine ⟨?_, ?_, ?_, ?_⟩
    · intro n hn
      rcases List.mem_cons.1 hn with rfl | hn
      · exact ⟨Nat.mul_pos (by omega) (by omega), Dvd.intro _ rfl,
          by simp only [WRITEPIXELS_MAXLEN]; omega⟩
      · have := List.eq_of_mem_replicate hn
        subst this
        exact ⟨Nat.mul_pos (by omega) (by omega), Dvd.intro _ rfl,
          by simp only [WRITEPIXELS_MAXLEN]; omega⟩
    · rw [List.sum_cons, List.sum_replicate, smul_eq_mul]
      have hh' : h = s * q + m + 1 := by omega
      rw [hh']
      ring
    · constructor
      · intro hl
        have := congrArg List.length hl
        simp at this
        omega
      · intro hcc
        exact absurd hcc hc
    · constructor
      · intro hl
        simp at hl
        omega
      · intro hcc
        exact absurd hcc hc

theorem setWindow_log_emitted (xs ys xe ye : Nat) (p : Panel) :
    (setWindow xs ys xe ye p).log = p.log ++ emitted p (setWindow xs ys xe ye p) := by
  rw [setWindow_log, emitted_with_log]

/-- C11. On the converting path of `writeImage` (`transp = NON_TRANSP`,
`no_convert` false and left false by the bus, bus not busy), for `1 <= w <= 32767`
and `h >= 1` with `w * h < 2 ^ 32`, whatever the value of the nogap condition:
with fuel for `h` rounds the call returns; after the `setWindow` calls the log
holds one QSPI framed bus `writePixels` per chunk and nothing else; every chunk
length is a positive multiple of `w`, at most `WRITEPIXELS_MAXLEN`; the lengths
sum to `w * h`; and there is a single chunk, of length `w * h`, exactly when
nogap holds and `w * h <= WRITEPIXELS_MAXLEN`. -/
theorem writeImage_chunks_cover_image (env : Env)
    (henv : ∀ q n, (env.bus_writePixels q n).no_convert = q.no_convert)
    (hbusy : env.busy = false) (param : pixelcopy_t) (htr : param.transp = NON_TRANSP)
    (hnc : param.no_convert = false) (x y w h fuel : Nat) (use_dma : Bool) (p : Panel)
    (hw1 : 1 ≤ w) (hw2 : w ≤ 32767) (hh : 1 ≤ h) (hwh : w * h < 2 ^ 32) (hfuel : h ≤ fuel) :
    ∃ r, writeImage fuel env x y w h param use_dma p = some r ∧
      emitted p r.2 =
        emitted p (setWindow x y (usub (uadd x w) 1) (usub (uadd y h) 1) p) ++
          framedRuns (pixelLengths (emitted p r.2)) ∧
      (∀ n ∈ pixelLengths (emitted p r.2), 0 < n ∧ w ∣ n ∧ n ≤ WRITEPIXELS_MAXLEN) ∧
      (pixelLengths (emitted p r.2)).sum = w * h ∧
      (pixelLengths (emitted p r.2) = [w * h] ↔
        ((h = 1 ∨ (param.src_y32_add = 0 ∧
            (param.src_bitwidth <<< FP_SCALE) % UINT32_MOD = umul w param.src_x32_add)) ∧
          w * h ≤ WRITEPIXELS_MAXLEN)) ∧
      ((pixelLengths (emitted p r.2)).length = 1 ↔
        ((h = 1 ∨ (param.src_y32_add = 0 ∧
            (param.src_bitwidth <<< FP_SCALE) % UINT32_MOD = umul w param.src_x32_add)) ∧
          w * h ≤ WRITEPIXELS_MAXLEN)) := by
  obtain ⟨r, hr, hlog⟩ := writeImage_convert_log env henv hbusy param htr hnc x y w h fuel
    use_dma p hw1 hw2 hh hwh hfuel
  have hone : h = 1 → nogapOf w h param = true := by
    intro h1
    rw [h1]
    exact nogapOf_of_one w param
  obtain ⟨hmem, hsum, hsingle, hlen⟩ :=
    chunkLengths_spec w h (nogapOf w h param) hw1 hw2 hh hone
  rw [nogapOf_iff] at hsingle hlen
  rw [setWindow_log_emitted, List.append_assoc] at hlog
  have hem := emitted_of_log hlog
  have hpl : pixelLengths (emitted p r.2) = chunkLengths w h (nogapOf w h param) := by
    rw [hem, pixelLengths_append, pixelLengths_setWindow, pixelLengths_framedRuns]
    rfl
  refine ⟨r, hr, ?_, ?_, ?_, ?_, ?_⟩
  · rw [hpl]; exact hem
  · rw [hpl]; exact hmem
  · rw [hpl]; exact hsum
  · rw [hpl]; exact hsingle
  · rw [hpl]; exact hlen

/-- C11, at a concrete input: a 240 x 320 image without row gap, on an idle bus.
The chunks are 48 rows, then twice 136 rows: 11520, 32640 and 32640 pixels. -/
theorem writeImage_chunks_cover_image_witness :
    (∃ r, writeImage 320 idleEnv 0 0 240 320 (paramConvert 240) false panel240x320 = some r ∧
      emitted panel240x320 r.2 =
        emitted panel240x320
            (setWindow 0 0 (usub (uadd 0 240) 1) (usub (uadd 0 320) 1) panel240x320) ++
          framedRuns (pixelLengths (emitted panel240x320 r.2)) ∧
      (∀ n ∈ pixelLengths (emitted panel240x320 r.2),
        0 < n ∧ 240 ∣ n ∧ n ≤ WRITEPIXELS_MAXLEN) ∧
      (pixelLengths (emitted panel240x320 r.2)).sum = 240 * 320 ∧
      (pixelLengths (emitted panel240x320 r.2) = [240 * 320] ↔
        ((320 = 1 ∨ ((paramConvert 240).src_y32_add = 0 ∧
            ((paramConvert 240).src_bitwidth <<< FP_SCALE) % UINT32_MOD =
              umul 240 (paramConvert 240).src_x32_add)) ∧
          240 * 320 ≤ WRITEPIXELS_MAXLEN)) ∧
      ((pixelLengths (emitted panel240x320 r.2)).length = 1 ↔
        ((320 = 1 ∨ ((paramConvert 240).src_y32_add = 0 ∧
            ((paramConvert 240).src_bitwidth <<< FP_SCALE) % UINT32_MOD =
              umul 240 (paramConvert 240).src_x32_add)) ∧
          240 * 320 ≤ WRITEPIXELS_MAXLEN))) ∧
    (writeImage 320 idleEnv 0 0 240 320 (paramConvert 240) false panel240x320).map
        (fun r => pixelLengths (emitted panel240x320 r.2)) =
      some [11520, 32640, 32640] ∧
    (writeImage 320 idleEnv 0 0 240 2 (paramConvert 241) false panel240x320).map
        (fun r => pixelLengths (emitted panel240x320 r.2)) =
      some [240, 240] :=
  ⟨writeImage_chunks_cover_image idleEnv (fun _ _ => rfl) rfl (paramConvert 240) rfl rfl
      0 0 240 320 320 false panel240x320
      (by decide) (by decide) (by decide) (by decide) (by decide),
    by decide, by decide⟩

theorem repeatLengths_append (l1 l2 : List Call) :
    repeatLengths (l1 ++ l2) = repeatLengths l1 ++ repeatLengths l2 := by
  induction l1 with
  | nil => rfl
  | cons c rest ih => cases c <;> simp [repeatLengths, ih]

theorem repeatLengths_setWindow (xs ys xe ye : Nat) (p : Panel) :
    repeatLengths (emitted p (setWindow xs ys xe ye p)) = [] := by
  rw [setWindow_log, emitted_with_log]
  simp [repeatLengths]

theorem writeFillRectPreclipped_log (x y w h rawcolor : Nat) (p : Panel) :
    (writeFillRectPreclipped x y w h rawcolor p).log =
      (setWindow x y (usub (uadd w x) 1) (usub (uadd y h) 1) p).log ++
        qspiFramed [.writeDataRepeat rawcolor p._write_bits (umul w h)] := by
  rw [setWindow_log]
  simp [writeFillRectPreclipped, setWindow_log, start_qspi, end_qspi, qspiFramed, cs_control,
    bus_writeCommand, bus_wait, emit]

theorem writeFillRect_window_of_product (p : Panel) (x y w h rawcolor : Nat)
    (hx : x < 65536) (hy : y < 65536) (hw1 : 1 ≤ w) (hw2 : w ≤ p._width)
    (hh1 : 1 ≤ h) (hh2 : h ≤ p._height) (hxe : x + w - 1 < 65536) (hye : y + h - 1 < 65536)
    (hwh : w * h < 2 ^ 32) :
    emitted p (writeFillRectPreclipped x y w h rawcolor p) =
      emitted p (setWindow x y (x + w - 1) (y + h - 1) p) ++
        qspiFramed [.writeDataRepeat rawcolor p._write_bits (w * h)] ∧
    sentColumnStart (emitted p (writeFillRectPreclipped x y w h rawcolor p)) = x ∧
    sentColumnEnd (emitted p (writeFillRectPreclipped x y w h rawcolor p)) = x + w - 1 ∧
    sentRowStart (emitted p (writeFillRectPreclipped x y w h rawcolor p)) = y ∧
    sentRowEnd (emitted p (writeFillRectPreclipped x y w h rawcolor p)) = y + h - 1 ∧
    repeatLengths (emitted p (writeFillRectPreclipped x y w h rawcolor p)) = [w * h] ∧
    (sentColumnEnd (emitted p (writeFillRectPreclipped x y w h rawcolor p)) -
        sentColumnStart (emitted p (writeFillRectPreclipped x y w h rawcolor p)) + 1) *
      (sentRowEnd (emitted p (writeFillRectPreclipped x y w h rawcolor p)) -
        sentRowStart (emitted p (writeFillRectPreclipped x y w h rawcolor p)) + 1) = w * h := by
  have hxe' : usub (uadd w x) 1 = x + w - 1 := by
    have hu : uadd w x = w + x := by
      unfold uadd UINT32_MOD
      exact Nat.mod_eq_of_lt (by omega)
    rw [hu, usub_of_le (by omega) (by omega)]
    omega
  have hye' : usub (uadd y h) 1 = y + h - 1 := by
    have hu : uadd y h = y + h := by
      unfold uadd UINT32_MOD
      exact Nat.mod_eq_of_lt (by omega)
    rw [hu, usub_of_le (by omega) (by omega)]
  have hlimx : ¬ usub (x + w - 1) x ≥ p._width := by
    rw [usub_of_le (by omega) (by omega)]
    omega
  have hlimy : ¬ usub (y + h - 1) y ≥ p._height := by
    rw [usub_of_le (by omega) (by omega)]
    omega
  have hfill := writeFillRectPreclipped_log x y w h rawcolor p
  rw [hxe', hye', umul_of_lt hwh, setWindow_log_emitted, List.append_assoc] at hfill
  have hem := emitted_of_log hfill
  have hwin : emitted p (setWindow x y (x + w - 1) (y + h - 1) p) =
      [ .cs_control false,
        .writeCommand 0x02 8, .writeCommand 0x00 8, .writeCommand 0x2A 8, .writeCommand 0x00 8,
        .writeCommand (x >>> 8) 8, .writeCommand (x &&& 0xFF) 8,
        .writeCommand ((x + w - 1) >>> 8) 8, .writeCommand ((x + w - 1) &&& 0xFF) 8,
        .wait, .cs_control true,
        .cs_control false,
        .writeCommand 0x02 8, .writeCommand 0x00 8, .writeCommand 0x2B 8, .writeCommand 0x00 8,
        .writeCommand (y >>> 8) 8, .writeCommand (y &&& 0xFF) 8,
        .writeCommand ((y + h - 1) >>> 8) 8, .writeCommand ((y + h - 1) &&& 0xFF) 8,
        .wait, .cs_control true,
        .cs_control false,
        .writeCommand 0x02 8, .writeCommand 0x00 8, .writeCommand 0x2C 8, .writeCommand 0x00 8,
        .wait, .cs_control true ] := by
    rw [setWindow_log, emitted_with_log]
    simp only [if_neg hlimx, if_neg hlimy]
  have hcs : sentColumnStart (emitted p (writeFillRectPreclipped x y w h rawcolor p)) = x := by
    rw [hem, hwin]
    simp only [sentColumnStart, List.cons_append, decode16_cons, decode16_pair, shift_and_decode]
  have hce : sentColumnEnd (emitted p (writeFillRectPreclipped x y w h rawcolor p)) =
      x + w - 1 := by
    rw [hem, hwin]
    simp only [sentColumnEnd, List.cons_append, decode16_cons, decode16_pair, shift_and_decode]
  have hrs : sentRowStart (emitted p (writeFillRectPreclipped x y w h rawcolor p)) = y := by
    rw [hem, hwin]
    simp only [sentRowStart, List.cons_append, decode16_cons, decode16_pair, shift_and_decode]
  have hre : sentRowEnd (emitted p (writeFillRectPreclipped x y w h rawcolor p)) =
      y + h - 1 := by
    rw [hem, hwin]
    simp only [sentRowEnd, List.cons_append, decode16_cons, decode16_pair, shift_and_decode]
  refine ⟨hem, hcs, hce, hrs, hre, ?_, ?_⟩
  · rw [hem, repeatLengths_append, repeatLengths_setWindow]
    simp [qspiFramed, repeatLengths]
  · rw [hcs, hce, hrs, hre]
    have h1 : x + w - 1 - x + 1 = w := by omega
    have h2 : y + h - 1 - y + 1 = h := by omega
    rw [h1, h2]

/-- C12. On a panel whose `_width` and `_height` are 16 bit values, as they are
when copied from `_cfg.panel_width` and `_cfg.panel_height`: for 16 bit `x`, `y`,
`1 <= w <= _width` and `1 <= h <= _height` with `x + w - 1` and `y + h - 1` below
65536, `writeFillRectPreclipped` logs the calls of
`setWindow(x, y, x + w - 1, y + h - 1)`, whose ranges the limit rule leaves as
they are, and then one QSPI framed `writeDataRepeat(rawcolor, _write_bits,
w * h)`: the repeat count is the area `(ce - cs + 1) * (re - rs + 1)` of the
window sent. -/
theorem writeFillRect_writes_window_area (p : Panel) (x y w h rawcolor : Nat)
    (hpw : p._width ≤ 65535) (hph : p._height ≤ 65535)
    (hx : x < 65536) (hy : y < 65536) (hw1 : 1 ≤ w) (hw2 : w ≤ p._width)
    (hh1 : 1 ≤ h) (hh2 : h ≤ p._height) (hxe : x + w - 1 < 65536) (hye : y + h - 1 < 65536) :
    emitted p (writeFillRectPreclipped x y w h rawcolor p) =
      emitted p (setWindow x y (x + w - 1) (y + h - 1) p) ++
        qspiFramed [.writeDataRepeat rawcolor p._write_bits (w * h)] ∧
    sentColumnStart (emitted p (writeFillRectPreclipped x y w h rawcolor p)) = x ∧
    sentColumnEnd (emitted p (writeFillRectPreclipped x y w h rawcolor p)) =
      x + w - 1 ∧
    sentRowStart (emitted p (writeFillRectPreclipped x y w h rawcolor p)) = y ∧
    sentRowEnd (emitted p (writeFillRectPreclipped x y w h rawcolor p)) =
      y + h - 1 ∧
    repeatLengths (emitted p (writeFillRectPreclipped x y w h rawcolor p)) =
      [w * h] ∧
    (sentColumnEnd (emitted p (writeFillRectPreclipped x y w h rawcolor p)) -
        sentColumnStart (emitted p (writeFillRectPreclipped x y w h rawcolor p)) + 1) *
      (sentRowEnd (emitted p (writeFillRectPreclipped x y w h rawcolor p)) -
        sentRowStart (emitted p (writeFillRectPreclipped x y w h rawcolor p)) + 1) =
      w * h := by
  have hwh : w * h < 2 ^ 32 := by
    have : w * h ≤ 65535 * 65535 := Nat.mul_le_mul (by omega) (by omega)
    omega
  exact writeFillRect_window_of_product p x y w h rawcolor hx hy hw1 hw2 hh1 hh2 hxe hye hwh

/-- C12, at a concrete input: the 3 x 4 rectangle at `(2, 5)` of a 10 x 10
panel, 12 pixels. -/
theorem writeFillRect_writes_window_area_witness :
    emitted panel10 (writeFillRectPreclipped 2 5 3 4 0xF800 panel10) =
      emitted panel10 (setWindow 2 5 (2 + 3 - 1) (5 + 4 - 1) panel10) ++
        qspiFramed [.writeDataRepeat 0xF800 panel10._write_bits (3 * 4)] ∧
    sentColumnStart (emitted panel10 (writeFillRectPreclipped 2 5 3 4 0xF800 panel10)) = 2 ∧
    sentColumnEnd (emitted panel10 (writeFillRectPreclipped 2 5 3 4 0xF800 panel10)) =
      2 + 3 - 1 ∧
    sentRowStart (emitted panel10 (writeFillRectPreclipped 2 5 3 4 0xF800 panel10)) = 5 ∧
    sentRowEnd (emitted panel10 (writeFillRectPreclipped 2 5 3 4 0xF800 panel10)) =
      5 + 4 - 1 ∧
    repeatLengths (emitted panel10 (writeFillRectPreclipped 2 5 3 4 0xF800 panel10)) =
      [3 * 4] ∧
    (sentColumnEnd (emitted panel10 (writeFillRectPreclipped 2 5 3 4 0xF800 panel10)) -
        sentColumnStart (emitted panel10 (writeFillRectPreclipped 2 5 3 4 0xF800 panel10)) + 1) *
      (sentRowEnd (emitted panel10 (writeFillRectPreclipped 2 5 3 4 0xF800 panel10)) -
        sentRowStart (emitted panel10 (writeFillRectPreclipped 2 5 3 4 0xF800 panel10)) + 1) =
      3 * 4 :=
  writeFillRect_writes_window_area panel10 2 5 3 4 0xF800
    (by decide) (by decide) (by decide) (by decide) (by decide) (by decide) (by decide)
    (by decide) (by decide) (by decide)

end Panel_RM690B0
